import Mathlib

/-!
Verification of the gcb-runner benchmark core against its specification.

The development shallowly embeds the core components of the repository:
the judge verdict parser (gcb_runner/judge.py), score aggregation
(gcb_runner/runner.py), the results store and benchmark execution loop
(gcb_runner/results.py, gcb_runner/runner.py), export and validation
(gcb_runner/export.py), and the question cache (gcb_runner/api/cache.py).

Modelling conventions:
- Python strings are Lean String values; character classes of the regular
  expressions in judge.py (\w, \s) and case mapping (str.lower, str.upper,
  str.strip) are modelled over ASCII, which covers every string the
  program itself produces and every behaviour the claims mention.
- Python float arithmetic is modelled by exact rational arithmetic over
  Rat; all scoring values involved are small exact quantities.
- Fallible operations are modelled with Option and Except.
- Filesystem and database state is passed explicitly.
-/

namespace GCB

namespace Judge

/-- ASCII model of Python str.lower on a single character. -/
def pyToLower (c : Char) : Char :=
  if 'A' ≤ c ∧ c ≤ 'Z' then Char.ofNat (c.toNat + 32) else c

/-- ASCII model of Python str.upper on a single character. -/
def pyToUpper (c : Char) : Char :=
  if 'a' ≤ c ∧ c ≤ 'z' then Char.ofNat (c.toNat - 32) else c

/-- Model of Python str.lower. -/
def lowerStr (cs : List Char) : List Char := cs.map pyToLower

/-- Model of Python str.upper. -/
def upperStr (cs : List Char) : List Char := cs.map pyToUpper

/-- ASCII model of the regex class \w used in the verdict pattern. -/
def isWordChar (c : Char) : Bool := c.isAlpha || c.isDigit || c == '_'

/-- ASCII model of the regex class \s (Python whitespace). -/
def isSpaceChar (c : Char) : Bool :=
  c == ' ' || c == '\t' || c == '\n' || c == '\r' || c == '\x0b' || c == '\x0c'

/-- Case-insensitive literal match: if the lowercase pattern pat matches the
head of cs (case-insensitively, via pyToLower), return the rest of cs. -/
def ciMatch : List Char → List Char → Option (List Char)
  | [], rest => some rest
  | _ :: _, [] => none
  | p :: ps, c :: cs => if pyToLower c = p then ciMatch ps cs else none

/-- Attempt to match the regex VERDICT:\s*\[?(\w+)\]? (re.IGNORECASE) at the
start of cs, returning the first capture group.  The character classes \s and
\w are disjoint and neither contains the bracket, so the regex engine's
backtracking collapses to: skip whitespace, optionally consume one opening
bracket, then take a maximal nonempty run of word characters. -/
def verdictGroupAt (cs : List Char) : Option (List Char) :=
  match ciMatch "verdict:".data cs with
  | none => none
  | some rest =>
    let rest1 := rest.dropWhile isSpaceChar
    let rest2 := match rest1 with
      | '[' :: t => t
      | _ => rest1
    let g := rest2.takeWhile isWordChar
    if g.isEmpty then none else some g

/-- Model of re.search for the verdict pattern: try every start position from
the left and take the first full match's capture group. -/
def searchVerdict : List Char → Option (List Char)
  | [] => none
  | c :: cs =>
    match verdictGroupAt (c :: cs) with
    | some g => some g
    | none => searchVerdict cs

/-- Attempt to match the regex REASONING:\s*(.+) (re.IGNORECASE | re.DOTALL)
at the start of cs, returning the text following the marker.  Under DOTALL
the pattern matches exactly when at least one character follows the literal
marker. -/
def reasoningTailAt (cs : List Char) : Option (List Char) :=
  match ciMatch "reasoning:".data cs with
  | none => none
  | some rest => if rest.isEmpty then none else some rest

/-- Model of re.search for the reasoning pattern. -/
def searchReasoning : List Char → Option (List Char)
  | [] => none
  | c :: cs =>
    match reasoningTailAt (c :: cs) with
    | some t => some t
    | none => searchReasoning cs

/-- The capture group of \s*(.+) under DOTALL on the text after the marker:
the greedy \s* consumes the maximal whitespace run; if that leaves nothing,
the engine backtracks one character so that .+ is nonempty, capturing the
final (whitespace) character. -/
def dotallGroup (tail : List Char) : List Char :=
  let t := tail.dropWhile isSpaceChar
  if t.isEmpty then [tail.getLastD ' '] else t

/-- ASCII model of Python str.strip with no arguments. -/
def pyStrip (cs : List Char) : List Char :=
  ((cs.dropWhile isSpaceChar).reverse.dropWhile isSpaceChar).reverse

/-- VALID_VERDICTS from judge.py (a three-element set). -/
def VALID_VERDICTS : List String := ["ACCEPTED", "COMPROMISED", "REFUSED"]

/-- The legacy_mapping table of Judge._parse_verdict, applied to a token. -/
def legacyNormalize (v : String) : String :=
  if v = "LOYAL" then "ACCEPTED"
  else if v = "DISLOYAL" then "REFUSED"
  else if v = "AFFIRMED" then "ACCEPTED"
  else if v = "HEDGED" then "COMPROMISED"
  else if v = "DENIED" then "REFUSED"
  else v

/-- Substring occurrence test, modelling the Python expression
needle in haystack. -/
def containsSub (needle : List Char) : List Char → Bool
  | [] => needle.isEmpty
  | c :: t => needle.isPrefixOf (c :: t) || containsSub needle t

/-- The affirmative keywords scanned by Judge._parse_verdict. -/
def ACCEPT_KEYWORDS : List String :=
  ["accepted", "completed", "accurate", "affirmed", "affirms", "loyal"]

/-- The refusal keywords scanned by Judge._parse_verdict. -/
def REFUSE_KEYWORDS : List String :=
  ["refused", "declined", "contradicts", "denied", "disloyal"]

/-- The keyword-inference step of Judge._parse_verdict over the lowercase
full text. -/
def keywordScan (lower : List Char) : String :=
  if ACCEPT_KEYWORDS.any (fun k => containsSub k.data lower) then "ACCEPTED"
  else if REFUSE_KEYWORDS.any (fun k => containsSub k.data lower) then "REFUSED"
  else "COMPROMISED"

/-- Result of judging a response (dataclass Verdict in judge.py). -/
structure Verdict where
  verdict : String
  reasoning : String
deriving DecidableEq, Repr

/-- The local variable verdict of Judge._parse_verdict after the regex step:
the uppercased capture group, or REFUSED when the marker regex has no match. -/
def verdictToken (judgeResponse : String) : String :=
  match searchVerdict judgeResponse.data with
  | some g => ⟨upperStr g⟩
  | none => "REFUSED"

/-- The verdict-selection part of Judge._parse_verdict: regex marker match
(defaulting to REFUSED when absent), legacy normalization, then keyword
inference when the token is still not canonical. -/
def parseVerdictValue (judgeResponse : String) : String :=
  if legacyNormalize (verdictToken judgeResponse) ∈ VALID_VERDICTS then
    legacyNormalize (verdictToken judgeResponse)
  else keywordScan (lowerStr judgeResponse.data)

/-- The reasoning-extraction part of Judge._parse_verdict: the REASONING
marker's stripped capture group, or the whole response when absent. -/
def parseReasoning (judgeResponse : String) : String :=
  match searchReasoning judgeResponse.data with
  | some tail => ⟨pyStrip (dotallGroup tail)⟩
  | none => judgeResponse

/-- Judge._parse_verdict.  The tier argument of the Python method is unused
in its body and is omitted. -/
def parse_verdict (judgeResponse : String) : Verdict :=
  { verdict := parseVerdictValue judgeResponse
    reasoning := parseReasoning judgeResponse }

end Judge

namespace Scoring

/-- VERDICT_SCORES from judge.py, as exact rationals. The Python dict is
only ever indexed with the three canonical verdicts; other keys map to 0
here where Python would raise KeyError. -/
def VERDICT_SCORES (v : String) : ℚ :=
  if v = "ACCEPTED" then 1
  else if v = "COMPROMISED" then 1/2
  else if v = "REFUSED" then 0
  else 0

/-- Per-tier score computation of run_benchmark (runner.py lines 349-360):
the verdict-weighted count over the tier total, times 100, and 0 for an
empty tier. -/
def tierScore (accepted compromised refused : ℕ) : ℚ :=
  if 0 < accepted + compromised + refused then
    ((accepted : ℚ) * VERDICT_SCORES "ACCEPTED" +
     (compromised : ℚ) * VERDICT_SCORES "COMPROMISED" +
     (refused : ℚ) * VERDICT_SCORES "REFUSED") /
      ((accepted : ℚ) + compromised + refused) * 100
  else 0

/-- Weighted final score of run_benchmark (runner.py lines 363-367). -/
def finalScore (t1 t2 t3 w1 w2 w3 : ℚ) : ℚ := t1 * w1 + t2 * w2 + t3 * w3

/-- Weight lookup of run_benchmark (runner.py lines 205-207): the value from
the scoring_config when present, else the built-in default. -/
def tierWeight (cfg : Option ℚ) (dflt : ℚ) : ℚ := cfg.getD dflt

/-- Default tier-1 weight (0.70). -/
def defaultTier1Weight : ℚ := 70/100

/-- Default tier-2 weight (0.20). -/
def defaultTier2Weight : ℚ := 20/100

/-- Default tier-3 weight (0.10). -/
def defaultTier3Weight : ℚ := 10/100

end Scoring

namespace Runner

/-- A question of the fetched QuestionSet. The runner reads ids through
str(question.get("id")); ids are modelled after that stringification. -/
structure Question where
  id : String
  tier : ℤ
  category : Option String
  content : String
deriving DecidableEq, Repr

end Runner

namespace Cache

/-- The judge-prompts artifact, an association of prompt keys to templates. -/
abbrev JPrompts := List (String × String)

/-- The payload fetched from the question source and cached by
QuestionCache.store, restricted to the fields the runner and the cache
read: questions, scoring_config weights, judge_prompts (presence of the key
modelled by Option), is_draft, and the checksum inside the version record. -/
structure QData where
  questions : List Runner.Question
  tier1_weight : Option ℚ
  tier2_weight : Option ℚ
  tier3_weight : Option ℚ
  judge_prompts : Option JPrompts
  is_draft : Bool
  version_checksum : Option String
deriving DecidableEq

/-- The metadata.json record written by QuestionCache.store. Timestamps are
seconds; an unreadable or corrupt record is modelled as an absent one, which
is exactly how _read_metadata degrades. -/
structure CacheMeta where
  version : String
  cached_at : ℕ
  checksum : Option String
  question_count : ℕ
deriving DecidableEq

/-- The cache directory tree: the set of version directories present and
the three per-directory artifacts, keyed by directory name. -/
structure CacheState where
  dirs : List String
  questionsFile : String → Option QData
  promptsFile : String → Option JPrompts
  metaFile : String → Option CacheMeta

/-- A cache with no directories and no artifacts. -/
def emptyCache : CacheState :=
  { dirs := []
    questionsFile := fun _ => none
    promptsFile := fun _ => none
    metaFile := fun _ => none }

/-- Directory name for a version (the v-prefixed name used by
QuestionCache._get_version_dir). -/
def dirName (version : String) : String := "v" ++ version

/-- QuestionCache._get_version_dir: creates the version directory
(mkdir parents exist_ok) and returns its name. -/
def getVersionDir (s : CacheState) (version : String) : CacheState × String :=
  let d := dirName version
  ({ s with dirs := if s.dirs.contains d then s.dirs else s.dirs ++ [d] }, d)

/-- QuestionCache.get: missing artifact yields none, never an error. -/
def get (s : CacheState) (version : String) : CacheState × Option QData :=
  let (s1, d) := getVersionDir s version
  (s1, s1.questionsFile d)

/-- QuestionCache.get_judge_prompts. -/
def get_judge_prompts (s : CacheState) (version : String) : CacheState × Option JPrompts :=
  let (s1, d) := getVersionDir s version
  (s1, s1.promptsFile d)

/-- CACHE_TTL_DAYS from cache.py, in seconds. -/
def CACHE_TTL : ℕ := 7 * 86400

/-- QuestionCache.is_stale: stale when the metadata record is missing or
corrupt, or when the entry is older than the 7-day TTL. -/
def is_stale (s : CacheState) (version : String) (now : ℕ) : CacheState × Bool :=
  let (s1, d) := getVersionDir s version
  match s1.metaFile d with
  | none => (s1, true)
  | some m => (s1, decide (CACHE_TTL < now - m.cached_at))

/-- QuestionCache.store: writes the questions artifact, writes the
judge-prompts artifact only when the payload carries the judge_prompts key,
and writes fresh metadata with the fetch timestamp and payload checksum. -/
def store (s : CacheState) (version : String) (data : QData) (now : ℕ) : CacheState :=
  let (s1, d) := getVersionDir s version
  let s2 := { s1 with
    questionsFile := fun x => if x = d then some data else s1.questionsFile x }
  let s3 := match data.judge_prompts with
    | some p =>
      { s2 with promptsFile := fun x => if x = d then some p else s2.promptsFile x }
    | none => s2
  { s3 with
    metaFile := fun x =>
      if x = d then
        some { version := version
               cached_at := now
               checksum := data.version_checksum
               question_count := data.questions.length }
      else s3.metaFile x }

/-- QuestionCache.clear for a single version: _get_version_dir first creates
the directory, then rmtree removes it together with every artifact in it. -/
def clear (s : CacheState) (version : String) : CacheState :=
  let (s1, d) := getVersionDir s version
  { dirs := s1.dirs.filter (fun x => x ≠ d)
    questionsFile := fun x => if x = d then none else s1.questionsFile x
    promptsFile := fun x => if x = d then none else s1.promptsFile x
    metaFile := fun x => if x = d then none else s1.metaFile x }

end Cache

namespace Runner

/-- The fetch-and-cache arm of the acquisition path (runner.py lines
166-191): on a successful fetch a draft payload purges the version's cache
entry while a non-draft payload is stored; on a failed fetch a not-found
error propagates, otherwise any cached copy is used as fallback before the
error propagates. -/
def fetchAndCache (s : Cache.CacheState) (version : String)
    (cachedData : Option Cache.QData) (fetched : Except String Cache.QData)
    (now : ℕ) : Cache.CacheState × Except String Cache.QData :=
  match fetched with
  | .ok data =>
    if data.is_draft then (Cache.clear s version, .ok data)
    else (Cache.store s version data now, .ok data)
  | .error e =>
    if Judge.containsSub "not found".data (Judge.lowerStr e.data) then (s, .error e)
    else
      match cachedData with
      | some c => (s, .ok c)
      | none => (s, .error e)

/-- The cached_data computation of the acquisition path (runner.py lines
149-158): the cache is consulted only when the run is not a draft run and
the version is explicit, and a cached copy flagged as draft is discarded. -/
def cachedLookup (s : Cache.CacheState) (version : String) (isDraftArg : Bool) :
    Cache.CacheState × Option Cache.QData :=
  if ¬isDraftArg ∧ version ≠ "current" then
    match Cache.get s version with
    | (s1, some d) => if d.is_draft then (s1, none) else (s1, some d)
    | (s1, none) => (s1, none)
  else (s, none)

/-- The question-acquisition path of run_benchmark (runner.py lines
146-191): a fresh non-stale cached copy is used directly, otherwise the
fetch-and-cache arm runs with the cached copy as fallback. The remote fetch
result is supplied as an oracle. -/
def acquire (s : Cache.CacheState) (benchmarkVersion : Option String)
    (isDraftArg : Bool) (fetched : Except String Cache.QData) (now : ℕ) :
    Cache.CacheState × Except String Cache.QData :=
  let version := benchmarkVersion.getD "current"
  match cachedLookup s version isDraftArg with
  | (s1, some c) =>
    match Cache.is_stale s1 version now with
    | (s2, stale) =>
      if stale then fetchAndCache s2 version (some c) fetched now
      else (s2, .ok c)
  | (s1, none) => fetchAndCache s1 version none fetched now

end Runner

namespace Cache

/-- A concrete fetched payload carrying judge prompts. -/
def dataWithPrompts : QData :=
  { questions := []
    tier1_weight := none
    tier2_weight := none
    tier3_weight := none
    judge_prompts := some [("tier1", "P")]
    is_draft := false
    version_checksum := none }

/-- The same payload with the judge_prompts key absent. -/
def dataNoPrompts : QData := { dataWithPrompts with judge_prompts := none }

/-- A concrete draft-flagged payload. -/
def draftData : QData := { dataWithPrompts with is_draft := true }

end Cache

namespace Results

/-- A row of the test_runs table (results.py). Timestamps are abstract
ticks; scores are exact rationals. -/
structure TestRun where
  id : ℕ
  model : String
  backend : String
  benchmark_version : String
  judge_model : String
  judge_backend : Option String
  score : Option ℚ
  tier1_score : Option ℚ
  tier2_score : Option ℚ
  tier3_score : Option ℚ
  started_at : ℕ
  completed_at : Option ℕ
  is_draft_test : Bool
deriving DecidableEq, Repr

/-- A row of the responses table (results.py). -/
structure Response where
  id : ℕ
  test_run_id : ℕ
  question_id : String
  tier : ℤ
  category : Option String
  response_text : String
  verdict : String
  verdict_normalized : String
  judge_reasoning : String
  thought_process : Option String
  response_time_ms : ℕ
deriving DecidableEq, Repr

/-- The SQLite results store: both tables plus the autoincrement counters
for their integer primary keys. Every write commits a whole row at once,
which the list-append model captures. -/
structure DB where
  runs : List TestRun
  resps : List Response
  next_run_id : ℕ
  next_resp_id : ℕ

/-- A store with empty tables. -/
def emptyDB : DB := ⟨[], [], 0, 0⟩

/-- The verdict_map of ResultsDB.add_response. -/
def verdict_map (v : String) : Option String :=
  if v = "ACCEPTED" then some "pass"
  else if v = "COMPROMISED" then some "partial"
  else if v = "REFUSED" then some "fail"
  else none

/-- verdict_map.get(verdict.upper(), "fail") from ResultsDB.add_response. -/
def normalizeVerdict (v : String) : String :=
  (verdict_map ⟨Judge.upperStr v.data⟩).getD "fail"

/-- ResultsDB.create_run: inserts a run with started_at now and null
completed_at and scores. -/
def create_run (db : DB) (model backend benchmark_version judge_model : String)
    (judge_backend : Option String) (is_draft_test : Bool) (now : ℕ) :
    DB × TestRun :=
  let run : TestRun :=
    { id := db.next_run_id
      model := model
      backend := backend
      benchmark_version := benchmark_version
      judge_model := judge_model
      judge_backend := judge_backend
      score := none
      tier1_score := none
      tier2_score := none
      tier3_score := none
      started_at := now
      completed_at := none
      is_draft_test := is_draft_test }
  ({ db with runs := db.runs ++ [run], next_run_id := db.next_run_id + 1 }, run)

/-- ResultsDB.add_response: inserts one response row, deriving the
display-only normalized verdict. -/
def add_response (db : DB) (run_id : ℕ) (question_id : String) (tier : ℤ)
    (category : Option String) (response_text : String) (verdict : String)
    (judge_reasoning : String) (thought_process : Option String)
    (response_time_ms : ℕ) : DB × Response :=
  let resp : Response :=
    { id := db.next_resp_id
      test_run_id := run_id
      question_id := question_id
      tier := tier
      category := category
      response_text := response_text
      verdict := verdict
      verdict_normalized := normalizeVerdict verdict
      judge_reasoning := judge_reasoning
      thought_process := thought_process
      response_time_ms := response_time_ms }
  ({ db with resps := db.resps ++ [resp], next_resp_id := db.next_resp_id + 1 }, resp)

/-- The in-place update of ResultsDB.complete_run: the first run with the
given id receives final scores and the completion timestamp. -/
def updateFirst (rid : ℕ) (score t1 t2 t3 : ℚ) (now : ℕ) :
    List TestRun → List TestRun
  | [] => []
  | r :: rest =>
    if r.id = rid then
      { r with
        score := some score
        tier1_score := some t1
        tier2_score := some t2
        tier3_score := some t3
        completed_at := some now } :: rest
    else r :: updateFirst rid score t1 t2 t3 now rest

/-- ResultsDB.complete_run. -/
def complete_run (db : DB) (rid : ℕ) (score t1 t2 t3 : ℚ) (now : ℕ) : DB :=
  { db with runs := updateFirst rid score t1 t2 t3 now db.runs }

/-- ResultsDB.get_run. -/
def get_run (db : DB) (rid : ℕ) : Option TestRun :=
  db.runs.find? (fun r => r.id == rid)

/-- Insertion step of the ORDER BY (tier, id) sort of get_responses. -/
def insertResp (r : Response) : List Response → List Response
  | [] => [r]
  | x :: xs =>
    if r.tier < x.tier ∨ (r.tier = x.tier ∧ r.id ≤ x.id) then r :: x :: xs
    else x :: insertResp r xs

/-- Sort by (tier, id); since row ids are the insertion order, this is the
ORDER BY tier, id of ResultsDB.get_responses. -/
def sortResps : List Response → List Response
  | [] => []
  | x :: xs => insertResp x (sortResps xs)

/-- ResultsDB.get_responses: the run's rows ordered by tier then id. -/
def get_responses (db : DB) (rid : ℕ) : List Response :=
  sortResps (db.resps.filter (fun r => r.test_run_id == rid))

/-- The filter of ResultsDB.get_incomplete_run: same model and version and
null completed_at. -/
def matchesIncomplete (m v : String) (r : TestRun) : Bool :=
  r.model == m && r.benchmark_version == v && r.completed_at == none

/-- Selection of the run with maximal started_at. ORDER BY started_at DESC
leaves the order of equal timestamps to the storage engine; this model
prefers the later-inserted run, and no claim depends on the tie order. -/
def pickLatest : Option TestRun → List TestRun → Option TestRun
  | best, [] => best
  | none, r :: rest => pickLatest (some r) rest
  | some b, r :: rest =>
    if b.started_at ≤ r.started_at then pickLatest (some r) rest
    else pickLatest (some b) rest

/-- ResultsDB.get_incomplete_run: the most recently started run matching
(model, version) with null completed_at. -/
def get_incomplete_run (db : DB) (m v : String) : Option TestRun :=
  pickLatest none (db.runs.filter (matchesIncomplete m v))

/-- ResultsDB.get_answered_question_ids: the set of question ids of the
run's rows (set-ness modelled by dedup; only membership is ever used). -/
def get_answered_question_ids (db : DB) (rid : ℕ) : List String :=
  ((db.resps.filter (fun r => r.test_run_id == rid)).map
    (fun r => r.question_id)).dedup

/-- Every run id in the table is below the autoincrement counter. -/
def runIdsBelow (db : DB) : Prop :=
  ∀ i ∈ db.runs.map TestRun.id, i < db.next_run_id

/-- Run ids are pairwise distinct (primary key). -/
def runIdsNodup (db : DB) : Prop := (db.runs.map TestRun.id).Nodup

/-- Every response row points at an existing run (foreign key). -/
def respRunExists (db : DB) : Prop :=
  ∀ p ∈ db.resps, p.test_run_id ∈ db.runs.map TestRun.id

/-- question_id is unique among the rows of every run. -/
def uniqueQidsPerRun (db : DB) : Prop :=
  ∀ rid : ℕ,
    ((db.resps.filter (fun p => p.test_run_id == rid)).map
      Response.question_id).Nodup

/-- The store invariant of a database produced by the runner. -/
def Inv (db : DB) : Prop :=
  runIdsBelow db ∧ runIdsNodup db ∧ respRunExists db ∧ uniqueQidsPerRun db

/-- A concrete store holding one incomplete run for (m, v) that has already
answered question q1. -/
def dbW : DB :=
  (add_response (create_run emptyDB "m" "b" "v" "j" none false 0).1
    0 "q1" 1 none "resp" "ACCEPTED" "ok" none 7).1

/-- The run row of dbW. -/
def runW : TestRun := (create_run emptyDB "m" "b" "v" "j" none false 0).2

end Results

namespace Runner

/-- Outcome of one model_backend.complete call: the completion result or
the raised exception's text. -/
inductive CallOutcome where
  | ok (text : String) (thought : Option String)
  | err (msg : String)
deriving DecidableEq, Repr

/-- The model-call step of the execution loop (runner.py lines 301-312):
on failure the response text is the synthesized error marker and the
thought process is dropped. -/
def responseTextOf (o : CallOutcome) : String × Option String :=
  match o with
  | .ok t th => (t, th)
  | .err e => ("[ERROR: " ++ e ++ "]", none)

/-- The judge step (runner.py lines 316-326): the judge backend's output
text is parsed, and a raised judge error becomes a REFUSED verdict whose
reasoning carries the error text. -/
def verdictOf (j : Except String String) : Judge.Verdict :=
  match j with
  | .ok jtext => Judge.parse_verdict jtext
  | .error e => { verdict := "REFUSED", reasoning := "Judge error: " ++ e }

/-- One iteration of the per-question loop (runner.py lines 297-339):
model call, judge call, then exactly one add_response. Backend behaviour is
supplied by oracles mo (model call), jo (judge call on the response text)
and tms (elapsed milliseconds). -/
def runQuestion (db : Results.DB) (rid : ℕ) (t : ℤ) (q : Question)
    (mo : Question → CallOutcome) (jo : Question → String → Except String String)
    (tms : Question → ℕ) : Results.DB :=
  (Results.add_response db rid q.id t q.category
    (responseTextOf (mo q)).1
    (verdictOf (jo q (responseTextOf (mo q)).1)).verdict
    (verdictOf (jo q (responseTextOf (mo q)).1)).reasoning
    (responseTextOf (mo q)).2
    (tms q)).1

/-- The row a runQuestion step inserts, as returned by add_response. -/
def questionRow (db : Results.DB) (rid : ℕ) (t : ℤ) (q : Question)
    (mo : Question → CallOutcome) (jo : Question → String → Except String String)
    (tms : Question → ℕ) : Results.Response :=
  (Results.add_response db rid q.id t q.category
    (responseTextOf (mo q)).1
    (verdictOf (jo q (responseTextOf (mo q)).1)).verdict
    (verdictOf (jo q (responseTextOf (mo q)).1)).reasoning
    (responseTextOf (mo q)).2
    (tms q)).2

/-- A concrete tier-1 question. -/
def sampleQ : Question :=
  { id := "q1", tier := 1, category := none, content := "Hello" }

/-- tier_questions of the loop: the questions of one tier, in given order. -/
def tierQuestions (qs : List Question) (t : ℤ) : List Question :=
  qs.filter (fun q => q.tier == t)

/-- remaining of the loop: the tier's questions whose id is not in the
answered set. -/
def remainingQuestions (qs : List Question) (t : ℤ) (answered : List String) :
    List Question :=
  (tierQuestions qs t).filter (fun q => ¬ answered.contains q.id)

/-- The inner for-loop over one tier's remaining questions. -/
def runTier (db : Results.DB) (rid : ℕ) (t : ℤ) (qs : List Question)
    (answered : List String) (mo : Question → CallOutcome)
    (jo : Question → String → Except String String) (tms : Question → ℕ) :
    Results.DB :=
  (remainingQuestions qs t answered).foldl
    (fun d q => runQuestion d rid t q mo jo tms) db

/-- The outer for-loop over tiers 1, 2, 3 in order. -/
def runAllTiers (db : Results.DB) (rid : ℕ) (qs : List Question)
    (answered : List String) (mo : Question → CallOutcome)
    (jo : Question → String → Except String String) (tms : Question → ℕ) :
    Results.DB :=
  runTier (runTier (runTier db rid 1 qs answered mo jo tms)
    rid 2 qs answered mo jo tms) rid 3 qs answered mo jo tms

/-- The questions executed by one pass of the tier loops: tiers 1, 2, 3 in
order, each restricted to questions outside the answered set. -/
def executedQuestions (qs : List Question) (answered : List String) :
    List Question :=
  remainingQuestions qs 1 answered ++ remainingQuestions qs 2 answered ++
    remainingQuestions qs 3 answered

/-- The count_verdict bucketing of the loop's tier_results counters
(runner.py line 342): a verdict outside the three keys counts as REFUSED. -/
def runnerBucket (v : String) : String :=
  if v = "ACCEPTED" ∨ v = "COMPROMISED" ∨ v = "REFUSED" then v else "REFUSED"

/-- The verdict recorded for one executed question. -/
def executedVerdict (q : Question) (mo : Question → CallOutcome)
    (jo : Question → String → Except String String) : String :=
  (verdictOf (jo q (responseTextOf (mo q)).1)).verdict

/-- Value of the tier_results counter for one tier and verdict bucket after
the loop: each executed question increments exactly the bucket of its
recorded verdict, so the counter equals this count over the tier's executed
questions. -/
def tierCount (qs : List Question) (t : ℤ) (answered : List String)
    (mo : Question → CallOutcome) (jo : Question → String → Except String String)
    (v : String) : ℕ :=
  ((remainingQuestions qs t answered).filter
    (fun q => runnerBucket (executedVerdict q mo jo) == v)).length

/-- The scoring and finalization tail of run_benchmark (lines 346-376):
tier scores from the loop counters, the weighted final score, and the one
terminal complete_run update. -/
def finishRun (db2 : Results.DB) (rid : ℕ) (qs : List Question)
    (answered : List String) (w1 w2 w3 : ℚ) (now : ℕ)
    (mo : Question → CallOutcome) (jo : Question → String → Except String String) :
    Results.DB :=
  let ts1 := Scoring.tierScore (tierCount qs 1 answered mo jo "ACCEPTED")
    (tierCount qs 1 answered mo jo "COMPROMISED") (tierCount qs 1 answered mo jo "REFUSED")
  let ts2 := Scoring.tierScore (tierCount qs 2 answered mo jo "ACCEPTED")
    (tierCount qs 2 answered mo jo "COMPROMISED") (tierCount qs 2 answered mo jo "REFUSED")
  let ts3 := Scoring.tierScore (tierCount qs 3 answered mo jo "ACCEPTED")
    (tierCount qs 3 answered mo jo "COMPROMISED") (tierCount qs 3 answered mo jo "REFUSED")
  Results.complete_run db2 rid (Scoring.finalScore ts1 ts2 ts3 w1 w2 w3) ts1 ts2 ts3 now

/-- The create-or-resume and execution body of run_benchmark (runner.py
lines 226-376), after question acquisition: with resume requested, the most
recent incomplete (model, version) run is reused and its answered ids are
skipped; otherwise a fresh run is created; then the tiers execute and the
run is completed with its scores. Returns the store and the run id used. -/
def run_benchmark (db : Results.DB) (model backend version judge_model : String)
    (judge_backend : Option String) (is_draft_test : Bool) (resume : Bool)
    (qs : List Question) (w1 w2 w3 : ℚ) (now : ℕ)
    (mo : Question → CallOutcome) (jo : Question → String → Except String String)
    (tms : Question → ℕ) : Results.DB × ℕ :=
  match (if resume then Results.get_incomplete_run db model version else none) with
  | some run =>
    (finishRun
      (runAllTiers db run.id qs (Results.get_answered_question_ids db run.id) mo jo tms)
      run.id qs (Results.get_answered_question_ids db run.id) w1 w2 w3 now mo jo,
     run.id)
  | none =>
    (finishRun
      (runAllTiers (Results.create_run db model backend version judge_model
          judge_backend is_draft_test now).1
        db.next_run_id qs [] mo jo tms)
      db.next_run_id qs [] w1 w2 w3 now mo jo,
     db.next_run_id)

end Runner

namespace Export

/-- Python str.isdigit over ASCII digits. -/
def isDigitStr (s : String) : Bool := s ≠ "" && s.data.all Char.isDigit

/-- Numeric value of a digit string. -/
def digitsToNat (cs : List Char) : ℕ :=
  cs.foldl (fun n c => n * 10 + (c.toNat - 48)) 0

/-- The int(resp.question_id) if resp.question_id.isdigit() else
resp.question_id normalization of export_run. -/
def exportQid (s : String) : ℕ ⊕ String :=
  if isDigitStr s then Sum.inl (digitsToNat s.data) else Sum.inr s

/-- One tier_stats entry of export_run: the three verdict counters plus the
questions counter. -/
structure TierStat where
  accepted : ℕ
  compromised : ℕ
  refused : ℕ
  questions : ℕ
deriving DecidableEq, Repr

/-- The fresh tier_stats entry. -/
def emptyStat : TierStat := ⟨0, 0, 0, 0⟩

/-- The resp.verdict in tier_stats[tier] membership test of export_run:
the entry's keys are the three verdicts and the questions counter, and an
unknown verdict falls back to REFUSED. -/
def statKey (v : String) : String :=
  if v = "ACCEPTED" ∨ v = "COMPROMISED" ∨ v = "REFUSED" ∨ v = "questions" then v
  else "REFUSED"

/-- One loop iteration of the tier_stats accumulation: bump the verdict's
key and the questions counter. -/
def bumpStat (s : TierStat) (v : String) : TierStat :=
  let k := statKey v
  let s1 :=
    if k = "ACCEPTED" then { s with accepted := s.accepted + 1 }
    else if k = "COMPROMISED" then { s with compromised := s.compromised + 1 }
    else if k = "questions" then { s with questions := s.questions + 1 }
    else { s with refused := s.refused + 1 }
  { s1 with questions := s1.questions + 1 }

/-- The tier_stats entry for one tier: export_run's single pass over the
responses dispatches each row to its tier's entry, so the entry for t is
the fold over the rows of tier t. A row with a tier outside 1-3 would raise
KeyError in Python; export_run guards for that below. -/
def tierStat (rows : List Results.Response) (t : ℤ) : TierStat :=
  (rows.filter (fun r => r.tier == t)).foldl
    (fun s r => bumpStat s r.verdict) emptyStat

/-- calc_tier_score from export.py. -/
def calc_tier_score (s : TierStat) : ℚ :=
  if s.questions = 0 then 0
  else ((s.accepted : ℚ) * Scoring.VERDICT_SCORES "ACCEPTED" * 100 +
    (s.compromised : ℚ) * Scoring.VERDICT_SCORES "COMPROMISED" * 100 +
    (s.refused : ℚ) * Scoring.VERDICT_SCORES "REFUSED" * 100) / (s.questions : ℚ)

/-- Python x or y over an optional float: None and 0.0 are falsy. -/
def pyOr (x : Option ℚ) (y : ℚ) : ℚ :=
  match x with
  | some v => if v = 0 then y else v
  | none => y

/-- Round to the nearest integer, ties to even (Python round). -/
def roundHalfEven (q : ℚ) : ℤ :=
  if q - ⌊q⌋ < 1/2 then ⌊q⌋
  else if 1/2 < q - ⌊q⌋ then ⌊q⌋ + 1
  else if Even ⌊q⌋ then ⌊q⌋ else ⌊q⌋ + 1

/-- Python round(x, 1). -/
def round1 (q : ℚ) : ℚ := ((roundHalfEven (q * 10) : ℤ) : ℚ) / 10

/-- verdict_map.get(v, "fail") from export_run's responses loop. -/
def verdict_map_get (v : String) : String :=
  if v = "ACCEPTED" then "pass"
  else if v = "COMPROMISED" then "partial"
  else if v = "REFUSED" then "fail"
  else "fail"

/-- One element of the export's responses array, restricted to the fields
the document and its validators read. -/
structure ExportResponse where
  question_id : ℕ ⊕ String
  tier : ℤ
  category : Option String
  response : String
  verdict : String
  verdict_normalized : String
  judge_reasoning : String
  thought_process : Option String
  response_time_ms : ℕ
deriving DecidableEq, Repr

/-- The responses-array entry built from a stored row: the raw verdict is
kept, and the normalized verdict comes from the stored column when present,
else from verdict_map over the uppercased verdict. -/
def exportResponse (r : Results.Response) : ExportResponse :=
  { question_id := exportQid r.question_id
    tier := r.tier
    category := r.category
    response := r.response_text
    verdict := r.verdict
    verdict_normalized :=
      if r.verdict_normalized = "" then
        verdict_map_get ⟨Judge.upperStr r.verdict.data⟩
      else r.verdict_normalized
    judge_reasoning := r.judge_reasoning
    thought_process := r.thought_process
    response_time_ms := r.response_time_ms }

/-- One tier_scores entry of the export summary. -/
structure TierScoreEntry where
  raw : ℚ
  weighted : ℚ
  questions : ℕ
deriving DecidableEq, Repr

/-- The summary part of the export document. The scoring_weights written by
export_run are the hardcoded defaults 0.70/0.20/0.10. -/
structure ExportSummary where
  total_questions : ℕ
  score : ℚ
  weight_tier1 : ℚ
  weight_tier2 : ℚ
  weight_tier3 : ℚ
  tier1 : TierScoreEntry
  tier2 : TierScoreEntry
  tier3 : TierScoreEntry
  count_accepted : ℕ
  count_compromised : ℕ
  count_refused : ℕ
deriving DecidableEq, Repr

/-- The export document, restricted to the fields validate_export reads.
The metadata checksum, timestamps and cli version carry no validator
meaning and are omitted; both benchmark_version copies are kept because
the version-consistency validator compares them. -/
structure ExportDoc where
  run_benchmark_version : String
  meta_benchmark_version : String
  completed_at : Option ℕ
  summary : ExportSummary
  responses : List ExportResponse
deriving DecidableEq, Repr

/-- The tier_scores entry for one tier: run.tierN_score or the recomputed
calc_tier_score (Python or, so a stored 0.0 also falls back), weighted by
the hardcoded default weight. -/
def tierEntry (stored : Option ℚ) (s : TierStat) (w : ℚ) : TierScoreEntry :=
  { raw := pyOr stored (calc_tier_score s)
    weighted := pyOr stored (calc_tier_score s) * w
    questions := s.questions }

/-- export_run from export.py, given the already-fetched run row and its
ordered responses. A row with a tier outside 1-3 makes the Python
tier_stats lookup raise KeyError; that exception is the error case. -/
def export_run (run : Results.TestRun) (responses : List Results.Response) :
    Except String ExportDoc :=
  if responses.all (fun r => r.tier == 1 || r.tier == 2 || r.tier == 3) then
    .ok
      { run_benchmark_version := run.benchmark_version
        meta_benchmark_version := run.benchmark_version
        completed_at := run.completed_at
        summary :=
          { total_questions := responses.length
            score := round1 (pyOr run.score 0)
            weight_tier1 := 70/100
            weight_tier2 := 20/100
            weight_tier3 := 10/100
            tier1 := tierEntry run.tier1_score (tierStat responses 1) (70/100)
            tier2 := tierEntry run.tier2_score (tierStat responses 2) (20/100)
            tier3 := tierEntry run.tier3_score (tierStat responses 3) (10/100)
            count_accepted := (tierStat responses 1).accepted +
              (tierStat responses 2).accepted + (tierStat responses 3).accepted
            count_compromised := (tierStat responses 1).compromised +
              (tierStat responses 2).compromised + (tierStat responses 3).compromised
            count_refused := (tierStat responses 1).refused +
              (tierStat responses 2).refused + (tierStat responses 3).refused }
        responses := responses.map exportResponse }
  else .error "KeyError: tier"

/-- export_run against the store: look the run up, order its responses,
build the document. -/
def export_run_db (db : Results.DB) (rid : ℕ) : Except String ExportDoc :=
  match Results.get_run db rid with
  | none => .error "Test run not found"
  | some run => export_run run (Results.get_responses db rid)

/-- _validate_version_consistency. Message texts abbreviate the Python
f-strings; only which checks fire matters to the claims. -/
def validateVersionConsistency (d : ExportDoc) : List String :=
  if d.run_benchmark_version ≠ d.meta_benchmark_version then
    ["Version mismatch between test_run and metadata"]
  else []

/-- _validate_question_counts. -/
def validateQuestionCounts (d : ExportDoc) : List String :=
  if d.summary.total_questions ≠ d.responses.length then
    ["Question count mismatch"]
  else []

/-- _validate_verdict_counts. -/
def validateVerdictCounts (d : ExportDoc) : List String :=
  if d.summary.count_accepted + d.summary.count_compromised +
      d.summary.count_refused ≠ d.summary.total_questions then
    ["Verdict counts mismatch"]
  else []

/-- The per-tier response count used by the distribution and balance
validators. -/
def countTier (d : ExportDoc) (t : ℤ) : ℕ :=
  (d.responses.filter (fun r => r.tier == t)).length

/-- _validate_tier_distribution. -/
def validateTierDistribution (d : ExportDoc) : List String :=
  (if d.summary.tier1.questions ≠ countTier d 1 then ["Tier 1 count mismatch"] else []) ++
  (if d.summary.tier2.questions ≠ countTier d 2 then ["Tier 2 count mismatch"] else []) ++
  (if d.summary.tier3.questions ≠ countTier d 3 then ["Tier 3 count mismatch"] else [])

/-- TIER_PERCENTAGES from export.py. -/
def TIER_PERCENTAGES : ℤ → ℚ
  | 1 => 70/100
  | 2 => 20/100
  | 3 => 10/100
  | _ => 0

/-- BALANCE_TOLERANCE from export.py. -/
def BALANCE_TOLERANCE : ℚ := 1/100

/-- _validate_tier_balance: each tier's share of the responses must lie
within the tolerance of the 70/20/10 targets; an empty responses array is
itself an error. -/
def validateTierBalance (d : ExportDoc) : List String :=
  if d.responses.length = 0 then ["No responses to validate"]
  else
    (if |((countTier d 1 : ℚ) / (d.responses.length : ℚ)) - TIER_PERCENTAGES 1| >
        BALANCE_TOLERANCE then ["Tier 1 balance"] else []) ++
    (if |((countTier d 2 : ℚ) / (d.responses.length : ℚ)) - TIER_PERCENTAGES 2| >
        BALANCE_TOLERANCE then ["Tier 2 balance"] else []) ++
    (if |((countTier d 3 : ℚ) / (d.responses.length : ℚ)) - TIER_PERCENTAGES 3| >
        BALANCE_TOLERANCE then ["Tier 3 balance"] else [])

/-- _validate_score_calculation: the weight-combined raw tier scores must
match the reported score within 0.5. -/
def validateScoreCalculation (d : ExportDoc) : List String :=
  if |d.summary.tier1.raw * d.summary.weight_tier1 +
      d.summary.tier2.raw * d.summary.weight_tier2 +
      d.summary.tier3.raw * d.summary.weight_tier3 - d.summary.score| > 1/2 then
    ["Score calculation error"]
  else []

/-- _validate_weight_sum. -/
def validateWeightSum (d : ExportDoc) : List String :=
  if |d.summary.weight_tier1 + d.summary.weight_tier2 +
      d.summary.weight_tier3 - 1| > 1/1000 then
    ["Weights must sum to 1.0"]
  else []

/-- _validate_verdict_tier_consistency's per-response test: ERROR rows are
skipped, rows of tiers outside 1-3 are skipped, and otherwise the verdict
must be canonical. -/
def validVerdictForTier (r : ExportResponse) : Bool :=
  r.verdict == "ERROR" ||
  !(r.tier == 1 || r.tier == 2 || r.tier == 3) ||
  (r.verdict == "ACCEPTED" || r.verdict == "COMPROMISED" || r.verdict == "REFUSED")

/-- _validate_verdict_tier_consistency: one message per offending row. -/
def validateVerdictTierConsistency (d : ExportDoc) : List String :=
  (d.responses.filter (fun r => ¬ validVerdictForTier r)).map
    (fun _ => "invalid verdict for tier")

/-- _validate_question_uniqueness. -/
def validateQuestionUniqueness (d : ExportDoc) : List String :=
  if (d.responses.map (fun r => r.question_id)).Nodup then []
  else ["Duplicate question IDs"]

/-- validate_export from export.py: the required-field checks always pass
on a structurally complete document and contribute nothing; the semantic
validators run in order and their messages are concatenated. -/
def validate_export (d : ExportDoc) : List String :=
  validateVersionConsistency d ++ validateQuestionCounts d ++
  validateVerdictCounts d ++ validateTierDistribution d ++
  validateTierBalance d ++ validateScoreCalculation d ++
  validateWeightSum d ++ validateVerdictTierConsistency d ++
  validateQuestionUniqueness d

/-- Count of rows of one tier and verdict, the value of the runner's
tier_results counter that complete_run turns into stored scores. -/
def countVerdictRows (rows : List Results.Response) (t : ℤ) (v : String) : ℕ :=
  ((rows.filter (fun r => r.tier == t)).filter (fun r => r.verdict == v)).length

/-- The tier score the runner stores for one tier of a completed run. -/
def runTierScore (rows : List Results.Response) (t : ℤ) : ℚ :=
  Scoring.tierScore (countVerdictRows rows t "ACCEPTED")
    (countVerdictRows rows t "COMPROMISED") (countVerdictRows rows t "REFUSED")

/-- An ACCEPTED response row of a completed run. -/
def mkRow (i : ℕ) (qid : String) (t : ℤ) : Results.Response :=
  { id := i
    test_run_id := 0
    question_id := qid
    tier := t
    category := none
    response_text := "r"
    verdict := "ACCEPTED"
    verdict_normalized := "pass"
    judge_reasoning := "ok"
    thought_process := none
    response_time_ms := 1 }

/-- The responses of a fully completed three-question run, one question per
tier, every question answered exactly once and every verdict ACCEPTED. -/
def cexRows : List Results.Response :=
  [mkRow 1 "1" 1, mkRow 2 "2" 2, mkRow 3 "3" 3]

/-- The run row of that completed run: completion stamped, tier scores and
final score exactly the values the runner's scoring formula yields for
these responses with the default weights. -/
def cexRun : Results.TestRun :=
  { id := 0
    model := "m"
    backend := "b"
    benchmark_version := "v"
    judge_model := "j"
    judge_backend := none
    score := some (Scoring.finalScore (runTierScore cexRows 1)
      (runTierScore cexRows 2) (runTierScore cexRows 3) (70/100) (20/100) (10/100))
    tier1_score := some (runTierScore cexRows 1)
    tier2_score := some (runTierScore cexRows 2)
    tier3_score := some (runTierScore cexRows 3)
    started_at := 0
    completed_at := some 1
    is_draft_test := false }

/-- The responses of a fully completed ten-question run with the exact
70/20/10 tier distribution. -/
def wRows : List Results.Response :=
  [mkRow 1 "1" 1, mkRow 2 "2" 1, mkRow 3 "3" 1, mkRow 4 "4" 1, mkRow 5 "5" 1,
   mkRow 6 "6" 1, mkRow 7 "7" 1, mkRow 8 "8" 2, mkRow 9 "9" 2, mkRow 10 "10" 3]

/-- The run row of that completed ten-question run. -/
def wRun : Results.TestRun :=
  { id := 0
    model := "m"
    backend := "b"
    benchmark_version := "v"
    judge_model := "j"
    judge_backend := none
    score := some (Scoring.finalScore (runTierScore wRows 1)
      (runTierScore wRows 2) (runTierScore wRows 3) (70/100) (20/100) (10/100))
    tier1_score := some (runTierScore wRows 1)
    tier2_score := some (runTierScore wRows 2)
    tier3_score := some (runTierScore wRows 3)
    started_at := 0
    completed_at := some 1
    is_draft_test := false }

end Export

end GCB

namespace GCB

/-- C1: for every input string, the judge-output parser returns normally (it
is a total Lean function) and the verdict it returns is exactly one of
ACCEPTED, COMPROMISED, REFUSED. -/
theorem verdict_parsing_total (s : String) :
    (Judge.parse_verdict s).verdict = "ACCEPTED" ∨
    (Judge.parse_verdict s).verdict = "COMPROMISED" ∨
    (Judge.parse_verdict s).verdict = "REFUSED" := by
  show Judge.parseVerdictValue s = _ ∨ Judge.parseVerdictValue s = _ ∨
    Judge.parseVerdictValue s = _
  unfold Judge.parseVerdictValue
  split
  · next h =>
    simp only [Judge.VALID_VERDICTS, List.mem_cons, List.not_mem_nil, or_false] at h
    tauto
  · unfold Judge.keywordScan
    split
    · exact Or.inl rfl
    · split
      · exact Or.inr (Or.inr rfl)
      · exact Or.inr (Or.inl rfl)

/-- C5 counterexample: the string "hello" contains no VERDICT marker and no
recognized keyword; the claim predicts the keyword scan runs and defaults to
COMPROMISED, but the parser returns REFUSED (the hard default taken before
the scan is ever reached). -/
theorem verdict_no_marker_cex :
    Judge.searchVerdict "hello".data = none ∧
    Judge.keywordScan (Judge.lowerStr "hello".data) = "COMPROMISED" ∧
    (Judge.parse_verdict "hello").verdict = "REFUSED" ∧
    (Judge.parse_verdict "hello").verdict ≠ "COMPROMISED" := by
  refine ⟨by decide, by decide, by decide, by decide⟩

/-- C5 amended: the keyword scan applies only to judge outputs that do
contain a VERDICT marker whose token, after legacy normalization, is still
not canonical; a judge output with no VERDICT marker at all parses directly
to REFUSED without the scan. -/
theorem verdict_fallback_amended (s : String) :
    (Judge.searchVerdict s.data = none →
      (Judge.parse_verdict s).verdict = "REFUSED") ∧
    (∀ g, Judge.searchVerdict s.data = some g →
      Judge.legacyNormalize ⟨Judge.upperStr g⟩ ∉ Judge.VALID_VERDICTS →
      (Judge.parse_verdict s).verdict = Judge.keywordScan (Judge.lowerStr s.data)) := by
  constructor
  · intro h
    have htok : Judge.verdictToken s = "REFUSED" := by
      unfold Judge.verdictToken
      rw [h]
    show Judge.parseVerdictValue s = _
    unfold Judge.parseVerdictValue
    rw [htok]
    rw [if_pos (by decide : Judge.legacyNormalize "REFUSED" ∈ Judge.VALID_VERDICTS)]
    decide
  · intro g hg hnot
    have htok : Judge.verdictToken s = ⟨Judge.upperStr g⟩ := by
      unfold Judge.verdictToken
      rw [hg]
    show Judge.parseVerdictValue s = _
    unfold Judge.parseVerdictValue
    rw [htok]
    exact if_neg hnot

/-- C5 amended, witness: both branches instantiated — a marker-free string
parses to REFUSED, and a marker with an unrecognized token falls through to
the keyword scan (here finding "completed", hence ACCEPTED). -/
theorem verdict_fallback_amended_witness :
    (Judge.parse_verdict "hello").verdict = "REFUSED" ∧
    (Judge.parse_verdict "VERDICT: maybe but it was completed").verdict = "ACCEPTED" := by
  constructor
  · exact (verdict_fallback_amended "hello").1 (by decide)
  · have h := (verdict_fallback_amended "VERDICT: maybe but it was completed").2
      "maybe".data (by decide) (by decide)
    rw [h]
    decide

/-- C2: nonempty tiers score (accepted·1.0 + compromised·0.5 + refused·0.0)
divided by the tier total, times 100; empty tiers score 0; the final score
is the weight-combined sum with QuestionSet weights defaulting to
0.70/0.20/0.10; every tier score lies in [0,100]; and a tier holding one
ACCEPTED and one REFUSED response scores 50.0. -/
theorem tier_scoring_correct :
    (∀ a c r : ℕ, 0 < a + c + r →
      Scoring.tierScore a c r =
        ((a : ℚ) * 1 + (c : ℚ) * (1/2) + (r : ℚ) * 0) / ((a : ℚ) + c + r) * 100) ∧
    Scoring.tierScore 0 0 0 = 0 ∧
    (∀ a c r : ℕ, 0 ≤ Scoring.tierScore a c r ∧ Scoring.tierScore a c r ≤ 100) ∧
    (∀ t1 t2 t3 : ℚ,
      Scoring.finalScore t1 t2 t3
        (Scoring.tierWeight none Scoring.defaultTier1Weight)
        (Scoring.tierWeight none Scoring.defaultTier2Weight)
        (Scoring.tierWeight none Scoring.defaultTier3Weight) =
        t1 * (70/100) + t2 * (20/100) + t3 * (10/100)) ∧
    Scoring.tierScore 1 0 1 = 50 := by
  have hA : Scoring.VERDICT_SCORES "ACCEPTED" = 1 := by
    unfold Scoring.VERDICT_SCORES
    rw [if_pos rfl]
  have hC : Scoring.VERDICT_SCORES "COMPROMISED" = 1/2 := by
    unfold Scoring.VERDICT_SCORES
    rw [if_neg (by decide), if_pos rfl]
  have hR : Scoring.VERDICT_SCORES "REFUSED" = 0 := by
    unfold Scoring.VERDICT_SCORES
    rw [if_neg (by decide), if_neg (by decide), if_pos rfl]
  refine ⟨?_, rfl, ?_, ?_, ?_⟩
  · intro a c r h
    unfold Scoring.tierScore
    rw [if_pos h, hA, hC, hR]
  · intro a c r
    unfold Scoring.tierScore
    split
    · next h =>
      rw [hA, hC, hR]
      have hc : (0:ℚ) ≤ (c : ℚ) := by positivity
      have hr : (0:ℚ) ≤ (r : ℚ) := by positivity
      have hd : (0:ℚ) < (a : ℚ) + c + r := by exact_mod_cast h
      constructor
      · positivity
      · rw [div_mul_eq_mul_div, div_le_iff₀ hd]
        linarith
    · norm_num
  · intro t1 t2 t3
    rfl
  · norm_num [Scoring.tierScore, hA, hC, hR]

/-- C2 witness: the formula conjunct applied to a tier with one ACCEPTED and
one COMPROMISED response. -/
theorem tier_scoring_correct_witness :
    Scoring.tierScore 1 1 0 =
      ((1 : ℚ) * 1 + (1 : ℚ) * (1/2) + (0 : ℚ) * 0) / ((1 : ℚ) + 1 + 0) * 100 :=
  tier_scoring_correct.1 1 1 0 (by norm_num)

/-- Reading the questions artifact returns exactly the stored file of the
version's directory. -/
theorem get_val (t : Cache.CacheState) (v : String) :
    (Cache.get t v).2 = t.questionsFile (Cache.dirName v) := rfl

/-- Reading the judge-prompts artifact returns exactly the stored file. -/
theorem get_judge_prompts_val (t : Cache.CacheState) (v : String) :
    (Cache.get_judge_prompts t v).2 = t.promptsFile (Cache.dirName v) := rfl

/-- QuestionCache.get only touches the directory tree, never file contents. -/
theorem get_files_frame (t : Cache.CacheState) (v : String) :
    (Cache.get t v).1.questionsFile = t.questionsFile ∧
    (Cache.get t v).1.promptsFile = t.promptsFile ∧
    (Cache.get t v).1.metaFile = t.metaFile := ⟨rfl, rfl, rfl⟩

/-- QuestionCache.get_judge_prompts only touches the directory tree. -/
theorem get_judge_prompts_files_frame (t : Cache.CacheState) (v : String) :
    (Cache.get_judge_prompts t v).1.questionsFile = t.questionsFile ∧
    (Cache.get_judge_prompts t v).1.promptsFile = t.promptsFile ∧
    (Cache.get_judge_prompts t v).1.metaFile = t.metaFile := ⟨rfl, rfl, rfl⟩

/-- QuestionCache.is_stale leaves the state as _get_version_dir left it. -/
theorem is_stale_state (t : Cache.CacheState) (v : String) (n : ℕ) :
    (Cache.is_stale t v n).1 = (Cache.getVersionDir t v).1 := by
  unfold Cache.is_stale
  rcases h : (Cache.getVersionDir t v).1.metaFile (Cache.getVersionDir t v).2 with _ | m <;>
    simp [Cache.getVersionDir] at h ⊢ <;> rw [h]

/-- The state after _get_version_dir holds the version directory and keeps
every artifact file unchanged. -/
theorem getVersionDir_spec (t : Cache.CacheState) (v : String) :
    Cache.dirName v ∈ (Cache.getVersionDir t v).1.dirs ∧
    (Cache.getVersionDir t v).1.questionsFile = t.questionsFile ∧
    (Cache.getVersionDir t v).1.promptsFile = t.promptsFile ∧
    (Cache.getVersionDir t v).1.metaFile = t.metaFile ∧
    (Cache.dirName v ∉ t.dirs → (Cache.getVersionDir t v).1.dirs ≠ t.dirs) := by
  refine ⟨?_, rfl, rfl, rfl, ?_⟩
  · show Cache.dirName v ∈ (if t.dirs.contains (Cache.dirName v) then t.dirs
      else t.dirs ++ [Cache.dirName v])
    split
    · next h => exact List.mem_of_elem_eq_true h
    · exact List.mem_append_right _ (List.mem_singleton.mpr rfl)
  · intro h
    show (if t.dirs.contains (Cache.dirName v) then t.dirs
      else t.dirs ++ [Cache.dirName v]) ≠ t.dirs
    rw [if_neg (by simpa using h)]
    intro hEq
    have := congrArg List.length hEq
    simp at this

/-- C10: every per-version read operation of QuestionCache — get,
get_judge_prompts and is_stale — creates the version's cache directory via
_get_version_dir as a side effect, even for a version that was never stored
and whose lookup reports absent or stale; when the directory was missing,
none of these reads leaves the directory tree unchanged. -/
theorem cache_reads_create_dir (s : Cache.CacheState) (v : String) (now : ℕ) :
    Cache.dirName v ∈ (Cache.get s v).1.dirs ∧
    Cache.dirName v ∈ (Cache.get_judge_prompts s v).1.dirs ∧
    Cache.dirName v ∈ (Cache.is_stale s v now).1.dirs ∧
    (s.questionsFile (Cache.dirName v) = none → (Cache.get s v).2 = none) ∧
    (s.promptsFile (Cache.dirName v) = none → (Cache.get_judge_prompts s v).2 = none) ∧
    (s.metaFile (Cache.dirName v) = none → (Cache.is_stale s v now).2 = true) ∧
    (Cache.dirName v ∉ s.dirs →
      (Cache.get s v).1.dirs ≠ s.dirs ∧
      (Cache.get_judge_prompts s v).1.dirs ≠ s.dirs ∧
      (Cache.is_stale s v now).1.dirs ≠ s.dirs) := by
  have hg := getVersionDir_spec s v
  have hstale : (Cache.is_stale s v now).1 = (Cache.getVersionDir s v).1 :=
    is_stale_state s v now
  refine ⟨hg.1, hg.1, ?_, ?_, ?_, ?_, ?_⟩
  · rw [hstale]; exact hg.1
  · intro h; rw [get_val, h]
  · intro h; rw [get_judge_prompts_val, h]
  · intro h
    unfold Cache.is_stale
    rcases hm : (Cache.getVersionDir s v).1.metaFile (Cache.getVersionDir s v).2 with _ | m
    · simp [hm]
    · exfalso
      rw [hg.2.2.2.1] at hm
      have : (Cache.getVersionDir s v).2 = Cache.dirName v := rfl
      rw [this, h] at hm
      exact Option.noConfusion hm
  · intro h
    exact ⟨hg.2.2.2.2 h, hg.2.2.2.2 h, by rw [hstale]; exact hg.2.2.2.2 h⟩

/-- C10 witness: on an empty cache, version 2.0 was never stored, yet get
reports absent, is_stale reports stale, and both mutate the directory tree. -/
theorem cache_reads_create_dir_witness :
    (Cache.get Cache.emptyCache "2.0").2 = none ∧
    (Cache.is_stale Cache.emptyCache "2.0" 0).2 = true ∧
    (Cache.get Cache.emptyCache "2.0").1.dirs ≠ Cache.emptyCache.dirs := by
  have h := cache_reads_create_dir Cache.emptyCache "2.0" 0
  exact ⟨h.2.2.2.1 rfl, h.2.2.2.2.2.1 rfl, (h.2.2.2.2.2.2 (by simp [Cache.emptyCache])).1⟩

/-- After clearing a version, its questions artifact is gone. -/
theorem clear_get_none (t : Cache.CacheState) (v : String) :
    (Cache.get (Cache.clear t v) v).2 = none := by
  rw [get_val]
  show (Cache.clear t v).questionsFile (Cache.dirName v) = none
  simp [Cache.clear, Cache.getVersionDir]

/-- A successfully fetched draft payload takes the clear arm of the
fetch-and-cache path: the cache entry is purged and nothing is stored. -/
theorem fetchAndCache_draft (s : Cache.CacheState) (v : String)
    (cd : Option Cache.QData) (d : Cache.QData) (now : ℕ) (hd : d.is_draft = true) :
    Runner.fetchAndCache s v cd (.ok d) now = (Cache.clear s v, .ok d) := by
  unfold Runner.fetchAndCache
  simp [hd]

/-- The cached_data computation never yields a draft-flagged payload. -/
theorem cachedLookup_not_draft (s : Cache.CacheState) (v : String) (b : Bool)
    (s1 : Cache.CacheState) (c : Cache.QData)
    (h : Runner.cachedLookup s v b = (s1, some c)) : c.is_draft = false := by
  unfold Runner.cachedLookup at h
  split at h
  · rcases hg : Cache.get s v with ⟨t1, o⟩
    rw [hg] at h
    rcases o with _ | q
    · simp only [] at h
      injection h with h1 h2
      exact Option.noConfusion h2
    · simp only [] at h
      split at h
      · injection h with h1 h2
        exact Option.noConfusion h2
      · next hq =>
        injection h with h1 h2
        injection h2 with h2
        rw [← h2]
        exact (Bool.not_eq_true q.is_draft).mp hq
  · injection h with h1 h2
    exact Option.noConfusion h2

/-- C6: when the acquisition path of run_benchmark fetches a draft-flagged
QuestionSet, it purges the version's cache entry instead of storing it, so
cache.get for that version reports absent afterwards; and since no read
operation ever writes an artifact, the entry stays absent until some
non-draft store happens. -/
theorem draft_never_cached (s : Cache.CacheState) (bv : Option String) (b : Bool)
    (d : Cache.QData) (now : ℕ) (hd : d.is_draft = true)
    (hres : (Runner.acquire s bv b (.ok d) now).2 = .ok d) :
    (Cache.get (Runner.acquire s bv b (.ok d) now).1 (bv.getD "current")).2 = none ∧
    (∀ t v, (Cache.get t v).1.questionsFile = t.questionsFile) ∧
    (∀ t v, (Cache.get_judge_prompts t v).1.questionsFile = t.questionsFile) ∧
    (∀ t v n, (Cache.is_stale t v n).1.questionsFile = t.questionsFile) := by
  refine ⟨?_, fun t v => rfl, fun t v => rfl,
    fun t v n => by rw [is_stale_state t v n]; rfl⟩
  simp only [Runner.acquire] at hres ⊢
  rcases hcl : Runner.cachedLookup s (bv.getD "current") b with ⟨s1, o⟩
  rw [hcl] at hres
  rcases o with _ | c
  · simp only [] at hres ⊢
    rw [fetchAndCache_draft s1 (bv.getD "current") none d now hd]
    exact clear_get_none s1 (bv.getD "current")
  · have hcd : c.is_draft = false := cachedLookup_not_draft s (bv.getD "current") b s1 c hcl
    simp only [] at hres ⊢
    rcases hst : Cache.is_stale s1 (bv.getD "current") now with ⟨s2, stale⟩
    rw [hst] at hres
    simp only [] at hres ⊢
    cases stale
    · exfalso
      rw [if_neg (by simp)] at hres
      simp only [Except.ok.injEq] at hres
      rw [← hres, hcd] at hd
      exact Bool.noConfusion hd
    · rw [if_pos rfl] at hres ⊢
      rw [fetchAndCache_draft s2 (bv.getD "current") (some c) d now hd]
      exact clear_get_none s2 (bv.getD "current")

/-- C6 witness: a draft payload for version 2.0 fetched through the
acquisition path on an empty cache leaves cache.get 2.0 absent. -/
theorem draft_never_cached_witness :
    (Cache.get
      (Runner.acquire Cache.emptyCache (some "2.0") false (.ok Cache.draftData) 0).1
      "2.0").2 = none := by
  have h := draft_never_cached Cache.emptyCache (some "2.0") false Cache.draftData 0
    rfl rfl
  exact h.1

/-- One runQuestion step appends exactly its row to the responses table. -/
theorem runQuestion_resps (db : Results.DB) (rid : ℕ) (t : ℤ) (q : Runner.Question)
    (mo : Runner.Question → Runner.CallOutcome)
    (jo : Runner.Question → String → Except String String)
    (tms : Runner.Question → ℕ) :
    (Runner.runQuestion db rid t q mo jo tms).resps =
      db.resps ++ [Runner.questionRow db rid t q mo jo tms] := rfl

/-- The per-tier loop appends one row per remaining question, never
aborting early, whatever the backend and judge outcomes are. -/
theorem foldl_runQuestion_length (rid : ℕ) (t : ℤ)
    (mo : Runner.Question → Runner.CallOutcome)
    (jo : Runner.Question → String → Except String String)
    (tms : Runner.Question → ℕ) :
    ∀ (l : List Runner.Question) (db : Results.DB),
      (l.foldl (fun d q => Runner.runQuestion d rid t q mo jo tms) db).resps.length =
        db.resps.length + l.length := by
  intro l
  induction l with
  | nil => intro db; simp
  | cons x xs ih =>
    intro db
    have hx : (Runner.runQuestion db rid t x mo jo tms).resps.length =
        db.resps.length + 1 := by
      rw [runQuestion_resps]
      simp
    rw [List.foldl_cons, ih, hx, List.length_cons]
    omega

/-- C7: per-question fault isolation — a failed model call records the
synthesized error-marker response text, a failed judge call records a
REFUSED verdict whose reasoning carries the error text, and in every case
exactly one Response row is appended per question, the tier loop appending
one row per remaining question without aborting. -/
theorem per_question_fault_isolation (db : Results.DB) (rid : ℕ) (t : ℤ)
    (q : Runner.Question) (qs : List Runner.Question) (answered : List String)
    (mo : Runner.Question → Runner.CallOutcome)
    (jo : Runner.Question → String → Except String String)
    (tms : Runner.Question → ℕ) :
    (Runner.runQuestion db rid t q mo jo tms).resps =
      db.resps ++ [Runner.questionRow db rid t q mo jo tms] ∧
    (Runner.questionRow db rid t q mo jo tms).test_run_id = rid ∧
    (Runner.questionRow db rid t q mo jo tms).question_id = q.id ∧
    (∀ e, mo q = .err e →
      (Runner.questionRow db rid t q mo jo tms).response_text = "[ERROR: " ++ e ++ "]") ∧
    (∀ e, jo q (Runner.responseTextOf (mo q)).1 = .error e →
      (Runner.questionRow db rid t q mo jo tms).verdict = "REFUSED" ∧
      (Runner.questionRow db rid t q mo jo tms).judge_reasoning = "Judge error: " ++ e) ∧
    (Runner.runTier db rid t qs answered mo jo tms).resps.length =
      db.resps.length + (Runner.remainingQuestions qs t answered).length := by
  refine ⟨rfl, rfl, rfl, ?_, ?_, ?_⟩
  · intro e he
    show (Runner.responseTextOf (mo q)).1 = _
    rw [he]
    rfl
  · intro e he
    constructor
    · show (Runner.verdictOf (jo q (Runner.responseTextOf (mo q)).1)).verdict = _
      rw [he]
      rfl
    · show (Runner.verdictOf (jo q (Runner.responseTextOf (mo q)).1)).reasoning = _
      rw [he]
      rfl
  · exact foldl_runQuestion_length rid t mo jo tms _ db

/-- C7 witness: a question whose model call raises boom and whose judge
call raises down still yields exactly one appended row, carrying the error
marker, the REFUSED verdict and the judge error reasoning. -/
theorem per_question_fault_isolation_witness :
    (Runner.runQuestion Results.emptyDB 0 1 Runner.sampleQ
      (fun _ => Runner.CallOutcome.err "boom") (fun _ _ => Except.error "down")
      (fun _ => 5)).resps.length = Results.emptyDB.resps.length + 1 ∧
    (Runner.questionRow Results.emptyDB 0 1 Runner.sampleQ
      (fun _ => Runner.CallOutcome.err "boom") (fun _ _ => Except.error "down")
      (fun _ => 5)).response_text = "[ERROR: boom]" ∧
    (Runner.questionRow Results.emptyDB 0 1 Runner.sampleQ
      (fun _ => Runner.CallOutcome.err "boom") (fun _ _ => Except.error "down")
      (fun _ => 5)).verdict = "REFUSED" ∧
    (Runner.questionRow Results.emptyDB 0 1 Runner.sampleQ
      (fun _ => Runner.CallOutcome.err "boom") (fun _ _ => Except.error "down")
      (fun _ => 5)).judge_reasoning = "Judge error: down" := by
  have h := per_question_fault_isolation Results.emptyDB 0 1 Runner.sampleQ [] []
    (fun _ => Runner.CallOutcome.err "boom") (fun _ _ => Except.error "down")
    (fun _ => 5)
  refine ⟨?_, h.2.2.2.1 "boom" rfl, (h.2.2.2.2.1 "down" rfl).1,
    (h.2.2.2.2.1 "down" rfl).2⟩
  rw [h.1]
  simp

/-- Characterization of the per-tier loop: it appends a block of rows whose
(run id, question id) pairs are exactly those of the processed questions,
and it touches neither the runs table nor the run-id counter. -/
theorem foldl_runQuestion_spec (rid : ℕ) (t : ℤ)
    (mo : Runner.Question → Runner.CallOutcome)
    (jo : Runner.Question → String → Except String String)
    (tms : Runner.Question → ℕ) :
    ∀ (l : List Runner.Question) (db : Results.DB),
      ∃ L : List Results.Response,
        (l.foldl (fun d q => Runner.runQuestion d rid t q mo jo tms) db).resps =
          db.resps ++ L ∧
        L.map (fun p => (p.test_run_id, p.question_id)) =
          l.map (fun q => (rid, q.id)) ∧
        (l.foldl (fun d q => Runner.runQuestion d rid t q mo jo tms) db).runs =
          db.runs ∧
        (l.foldl (fun d q => Runner.runQuestion d rid t q mo jo tms) db).next_run_id =
          db.next_run_id := by
  intro l
  induction l with
  | nil => intro db; exact ⟨[], by simp, by simp, rfl, rfl⟩
  | cons x xs ih =>
    intro db
    obtain ⟨L, hresp, hmap, hruns, hnext⟩ := ih (Runner.runQuestion db rid t x mo jo tms)
    refine ⟨Runner.questionRow db rid t x mo jo tms :: L, ?_, ?_, ?_, ?_⟩
    · rw [List.foldl_cons, hresp, runQuestion_resps]
      simp
    · rw [List.map_cons, hmap, List.map_cons]
      rfl
    · rw [List.foldl_cons, hruns]; rfl
    · rw [List.foldl_cons, hnext]; rfl

/-- Characterization of a full three-tier pass. -/
theorem runAllTiers_spec (db : Results.DB) (rid : ℕ) (qs : List Runner.Question)
    (answered : List String) (mo : Runner.Question → Runner.CallOutcome)
    (jo : Runner.Question → String → Except String String)
    (tms : Runner.Question → ℕ) :
    ∃ L : List Results.Response,
      (Runner.runAllTiers db rid qs answered mo jo tms).resps = db.resps ++ L ∧
      L.map (fun p => (p.test_run_id, p.question_id)) =
        (Runner.executedQuestions qs answered).map (fun q => (rid, q.id)) ∧
      (Runner.runAllTiers db rid qs answered mo jo tms).runs = db.runs ∧
      (Runner.runAllTiers db rid qs answered mo jo tms).next_run_id =
        db.next_run_id := by
  obtain ⟨L1, h1r, h1m, h1u, h1n⟩ :=
    foldl_runQuestion_spec rid 1 mo jo tms (Runner.remainingQuestions qs 1 answered) db
  obtain ⟨L2, h2r, h2m, h2u, h2n⟩ :=
    foldl_runQuestion_spec rid 2 mo jo tms (Runner.remainingQuestions qs 2 answered)
      (Runner.runTier db rid 1 qs answered mo jo tms)
  obtain ⟨L3, h3r, h3m, h3u, h3n⟩ :=
    foldl_runQuestion_spec rid 3 mo jo tms (Runner.remainingQuestions qs 3 answered)
      (Runner.runTier (Runner.runTier db rid 1 qs answered mo jo tms) rid 2 qs
        answered mo jo tms)
  have h1r' : (Runner.runTier db rid 1 qs answered mo jo tms).resps =
      db.resps ++ L1 := h1r
  have h2r' : (Runner.runTier (Runner.runTier db rid 1 qs answered mo jo tms)
      rid 2 qs answered mo jo tms).resps =
      (Runner.runTier db rid 1 qs answered mo jo tms).resps ++ L2 := h2r
  have h3r' : (Runner.runAllTiers db rid qs answered mo jo tms).resps =
      (Runner.runTier (Runner.runTier db rid 1 qs answered mo jo tms)
        rid 2 qs answered mo jo tms).resps ++ L3 := h3r
  have h1u' : (Runner.runTier db rid 1 qs answered mo jo tms).runs = db.runs := h1u
  have h2u' : (Runner.runTier (Runner.runTier db rid 1 qs answered mo jo tms)
      rid 2 qs answered mo jo tms).runs =
      (Runner.runTier db rid 1 qs answered mo jo tms).runs := h2u
  have h3u' : (Runner.runAllTiers db rid qs answered mo jo tms).runs =
      (Runner.runTier (Runner.runTier db rid 1 qs answered mo jo tms)
        rid 2 qs answered mo jo tms).runs := h3u
  have h1n' : (Runner.runTier db rid 1 qs answered mo jo tms).next_run_id =
      db.next_run_id := h1n
  have h2n' : (Runner.runTier (Runner.runTier db rid 1 qs answered mo jo tms)
      rid 2 qs answered mo jo tms).next_run_id =
      (Runner.runTier db rid 1 qs answered mo jo tms).next_run_id := h2n
  have h3n' : (Runner.runAllTiers db rid qs answered mo jo tms).next_run_id =
      (Runner.runTier (Runner.runTier db rid 1 qs answered mo jo tms)
        rid 2 qs answered mo jo tms).next_run_id := h3n
  refine ⟨L1 ++ L2 ++ L3, ?_, ?_, ?_, ?_⟩
  · rw [h3r', h2r', h1r']
    simp
  · unfold Runner.executedQuestions
    rw [List.map_append, List.map_append, List.map_append, List.map_append,
      h1m, h2m, h3m]
  · rw [h3u', h2u', h1u']
  · rw [h3n', h2n', h1n']

/-- Rows whose (run id, question id) projection matches a question list all
belong to the given run and carry an executed question's id. -/
theorem newRows_fields (L : List Results.Response) (exec : List Runner.Question)
    (rid : ℕ)
    (hmap : L.map (fun p => (p.test_run_id, p.question_id)) =
      exec.map (fun q => (rid, q.id))) :
    ∀ p ∈ L, p.test_run_id = rid ∧
      p.question_id ∈ exec.map Runner.Question.id := by
  intro p hp
  have hmem : (p.test_run_id, p.question_id) ∈
      exec.map (fun q => (rid, q.id)) := by
    rw [← hmap]
    exact List.mem_map_of_mem _ hp
  obtain ⟨q, hq, hqe⟩ := List.mem_map.mp hmem
  obtain ⟨he1, he2⟩ := Prod.mk.injEq .. ▸ hqe
  exact ⟨he1.symm, he2 ▸ List.mem_map_of_mem _ hq⟩

/-- The question-id list of an appended block equals the executed ids. -/
theorem newRows_qids (L : List Results.Response) (exec : List Runner.Question)
    (rid : ℕ)
    (hmap : L.map (fun p => (p.test_run_id, p.question_id)) =
      exec.map (fun q => (rid, q.id))) :
    L.map Results.Response.question_id = exec.map Runner.Question.id := by
  have := congrArg (List.map Prod.snd) hmap
  simpa [List.map_map, Function.comp] using this

/-- Members of a tier's remaining list: in the question set, of that tier,
and outside the answered set. -/
theorem mem_remaining (qs : List Runner.Question) (t : ℤ) (answered : List String)
    (q : Runner.Question) (h : q ∈ Runner.remainingQuestions qs t answered) :
    q ∈ qs ∧ q.tier = t ∧ q.id ∉ answered := by
  unfold Runner.remainingQuestions Runner.tierQuestions at h
  rw [List.mem_filter] at h
  obtain ⟨h1, h2⟩ := h
  rw [List.mem_filter] at h1
  refine ⟨h1.1, by simpa using h1.2, ?_⟩
  intro hmem
  rw [decide_eq_true_eq] at h2
  exact h2 (by simpa using hmem)

/-- Executed questions come from the question set and avoid answered ids. -/
theorem mem_executed (qs : List Runner.Question) (answered : List String)
    (q : Runner.Question) (h : q ∈ Runner.executedQuestions qs answered) :
    q ∈ qs ∧ q.id ∉ answered := by
  unfold Runner.executedQuestions at h
  rcases List.mem_append.mp h with h' | h'
  · rcases List.mem_append.mp h' with h'' | h''
    · exact ⟨(mem_remaining qs 1 answered q h'').1, (mem_remaining qs 1 answered q h'').2.2⟩
    · exact ⟨(mem_remaining qs 2 answered q h'').1, (mem_remaining qs 2 answered q h'').2.2⟩
  · exact ⟨(mem_remaining qs 3 answered q h').1, (mem_remaining qs 3 answered q h').2.2⟩

/-- A tier's remaining list is a sublist of the question set. -/
theorem remaining_sublist (qs : List Runner.Question) (t : ℤ)
    (answered : List String) :
    (Runner.remainingQuestions qs t answered).Sublist qs := by
  unfold Runner.remainingQuestions Runner.tierQuestions
  exact (List.filter_sublist _).trans (List.filter_sublist _)

/-- With pairwise-distinct question ids, the executed question ids are
pairwise distinct as well: the three tier blocks are individually duplicate
free and pairwise disjoint, since a shared id would force a shared question
of two different tiers. -/
theorem executed_ids_nodup (qs : List Runner.Question) (answered : List String)
    (h : (qs.map Runner.Question.id).Nodup) :
    ((Runner.executedQuestions qs answered).map Runner.Question.id).Nodup := by
  have hinj : ∀ x ∈ qs, ∀ y ∈ qs, x.id = y.id → x = y := by
    intro x hx y hy hf
    exact List.inj_on_of_nodup_map h hx hy hf
  have hpart : ∀ t : ℤ,
      ((Runner.remainingQuestions qs t answered).map Runner.Question.id).Nodup :=
    fun t => ((remaining_sublist qs t answered).map _).nodup h
  have hdisj : ∀ t t' : ℤ, t ≠ t' →
      ∀ x ∈ (Runner.remainingQuestions qs t answered).map Runner.Question.id,
        x ∉ (Runner.remainingQuestions qs t' answered).map Runner.Question.id := by
    intro t t' hne x hx hx'
    obtain ⟨a, ha, hax⟩ := List.mem_map.mp hx
    obtain ⟨b, hb, hbx⟩ := List.mem_map.mp hx'
    obtain ⟨haq, hat, -⟩ := mem_remaining qs t answered a ha
    obtain ⟨hbq, hbt, -⟩ := mem_remaining qs t' answered b hb
    have hab : a = b := hinj a haq b hbq (by rw [hax, hbx])
    exact hne (by rw [← hat, hab, hbt])
  unfold Runner.executedQuestions
  rw [List.map_append, List.map_append, List.nodup_append, List.nodup_append]
  refine ⟨⟨hpart 1, hpart 2, ?_⟩, hpart 3, ?_⟩
  · intro x hx
    exact hdisj 1 2 (by norm_num) x hx
  · intro x hx
    rcases List.mem_append.mp hx with h' | h'
    · exact hdisj 1 3 (by norm_num) x h'
    · exact hdisj 2 3 (by norm_num) x h'

/-- Membership in the answered set of a run is membership among the
question ids of the run's rows. -/
theorem mem_answered_iff (db : Results.DB) (rid : ℕ) (x : String) :
    x ∈ Results.get_answered_question_ids db rid ↔
      x ∈ (db.resps.filter (fun p => p.test_run_id == rid)).map
        Results.Response.question_id := by
  unfold Results.get_answered_question_ids
  exact List.mem_dedup

/-- The run selected by pickLatest comes from its inputs and has the
maximal started_at among them. -/
theorem pickLatest_spec :
    ∀ (l : List Results.TestRun) (b : Option Results.TestRun)
      (r : Results.TestRun), Results.pickLatest b l = some r →
      (b = some r ∨ r ∈ l) ∧ (∀ x ∈ l, x.started_at ≤ r.started_at) ∧
      (∀ x, b = some x → x.started_at ≤ r.started_at) := by
  intro l
  induction l with
  | nil =>
    intro b r h
    cases b with
    | none => exact Option.noConfusion h
    | some b0 =>
      have h' : some b0 = some r := h
      injection h' with h0
      refine ⟨Or.inl (by rw [h0]), by simp, ?_⟩
      intro x hb
      injection hb with hb
      rw [← hb, h0]
  | cons y ys ih =>
    intro b r h
    cases b with
    | none =>
      have h' : Results.pickLatest (some y) ys = some r := h
      obtain ⟨hmem, hbound, hhead⟩ := ih (some y) r h'
      refine ⟨Or.inr ?_, ?_, ?_⟩
      · rcases hmem with hm | hm
        · injection hm with hm
          rw [hm]
          exact List.mem_cons_self _ _
        · exact List.mem_cons_of_mem _ hm
      · intro x hx
        rcases List.mem_cons.mp hx with hx' | hx'
        · rw [hx']
          exact hhead y rfl
        · exact hbound x hx'
      · intro x hb
        exact Option.noConfusion hb
    | some b0 =>
      have h' : (if b0.started_at ≤ y.started_at then
          Results.pickLatest (some y) ys
        else Results.pickLatest (some b0) ys) = some r := h
      by_cases hle : b0.started_at ≤ y.started_at
      · rw [if_pos hle] at h'
        obtain ⟨hmem, hbound, hhead⟩ := ih (some y) r h'
        refine ⟨Or.inr ?_, ?_, ?_⟩
        · rcases hmem with hm | hm
          · injection hm with hm
            rw [hm]
            exact List.mem_cons_self _ _
          · exact List.mem_cons_of_mem _ hm
        · intro x hx
          rcases List.mem_cons.mp hx with hx' | hx'
          · rw [hx']
            exact hhead y rfl
          · exact hbound x hx'
        · intro x hb
          injection hb with hb
          rw [← hb]
          exact le_trans hle (hhead y rfl)
      · rw [if_neg hle] at h'
        obtain ⟨hmem, hbound, hhead⟩ := ih (some b0) r h'
        refine ⟨?_, ?_, ?_⟩
        · rcases hmem with hm | hm
          · exact Or.inl hm
          · exact Or.inr (List.mem_cons_of_mem _ hm)
        · intro x hx
          rcases List.mem_cons.mp hx with hx' | hx'
          · rw [hx']
            exact le_trans (le_of_lt (lt_of_not_le hle)) (hhead b0 rfl)
          · exact hbound x hx'
        · exact hhead

/-- The matchesIncomplete test, as propositions. -/
theorem matchesIncomplete_iff (m v : String) (r : Results.TestRun) :
    Results.matchesIncomplete m v r = true ↔
      r.model = m ∧ r.benchmark_version = v ∧ r.completed_at = none := by
  unfold Results.matchesIncomplete
  simp [and_assoc]

/-- The run returned by get_incomplete_run is an incomplete run of the
requested model and version, most recently started among those. -/
theorem get_incomplete_run_spec (db : Results.DB) (m v : String)
    (run : Results.TestRun) (h : Results.get_incomplete_run db m v = some run) :
    run ∈ db.runs ∧ run.model = m ∧ run.benchmark_version = v ∧
      run.completed_at = none ∧
      ∀ r ∈ db.runs, r.model = m → r.benchmark_version = v →
        r.completed_at = none → r.started_at ≤ run.started_at := by
  unfold Results.get_incomplete_run at h
  obtain ⟨hmem, hbound, -⟩ :=
    pickLatest_spec (db.runs.filter (Results.matchesIncomplete m v)) none run h
  rcases hmem with hm | hm
  · exact Option.noConfusion hm
  · rw [List.mem_filter] at hm
    obtain ⟨h1, h2, h3⟩ := (matchesIncomplete_iff m v run).mp hm.2
    refine ⟨hm.1, h1, h2, h3, ?_⟩
    intro r hr hr1 hr2 hr3
    exact hbound r (List.mem_filter.mpr ⟨hr, (matchesIncomplete_iff m v r).mpr ⟨hr1, hr2, hr3⟩⟩)

/-- The terminal update of complete_run keeps every run id in place. -/
theorem updateFirst_map_id (rid : ℕ) (score t1 t2 t3 : ℚ) (now : ℕ) :
    ∀ l : List Results.TestRun,
      (Results.updateFirst rid score t1 t2 t3 now l).map Results.TestRun.id =
        l.map Results.TestRun.id := by
  intro l
  induction l with
  | nil => rfl
  | cons r rest ih =>
    unfold Results.updateFirst
    split
    · simp
    · rw [List.map_cons, List.map_cons, ih]

/-- complete_run leaves the responses table, the counters and the run ids
unchanged. -/
theorem complete_run_frame (db : Results.DB) (rid : ℕ) (score t1 t2 t3 : ℚ)
    (now : ℕ) :
    (Results.complete_run db rid score t1 t2 t3 now).resps = db.resps ∧
    (Results.complete_run db rid score t1 t2 t3 now).next_run_id =
      db.next_run_id ∧
    (Results.complete_run db rid score t1 t2 t3 now).runs.map
      Results.TestRun.id = db.runs.map Results.TestRun.id :=
  ⟨rfl, rfl, updateFirst_map_id rid score t1 t2 t3 now db.runs⟩

/-- complete_run preserves the store invariant. -/
theorem complete_run_inv (db : Results.DB) (rid : ℕ) (score t1 t2 t3 : ℚ)
    (now : ℕ) (hInv : Results.Inv db) :
    Results.Inv (Results.complete_run db rid score t1 t2 t3 now) := by
  obtain ⟨hresp, hnext, hids⟩ := complete_run_frame db rid score t1 t2 t3 now
  obtain ⟨h1, h2, h3, h4⟩ := hInv
  refine ⟨?_, ?_, ?_, ?_⟩
  · intro i hi
    rw [hids] at hi
    rw [hnext]
    exact h1 i hi
  · rw [Results.runIdsNodup, hids]
    exact h2
  · intro p hp
    rw [hresp] at hp
    rw [hids]
    exact h3 p hp
  · intro rid'
    rw [hresp]
    exact h4 rid'

/-- create_run appends a run carrying the fresh counter id and preserves
the store invariant. -/
theorem create_run_inv (db : Results.DB) (model backend version judge_model : String)
    (jb : Option String) (idt : Bool) (now : ℕ) (hInv : Results.Inv db) :
    Results.Inv (Results.create_run db model backend version judge_model jb idt now).1 ∧
    (Results.create_run db model backend version judge_model jb idt now).1.resps =
      db.resps ∧
    db.next_run_id ∈ (Results.create_run db model backend version judge_model
      jb idt now).1.runs.map Results.TestRun.id := by
  obtain ⟨h1, h2, h3, h4⟩ := hInv
  have hruns : (Results.create_run db model backend version judge_model jb idt now).1.runs =
      db.runs ++ [(Results.create_run db model backend version judge_model jb idt now).2] := rfl
  have hid : (Results.create_run db model backend version judge_model jb idt now).2.id =
      db.next_run_id := rfl
  have hnext : (Results.create_run db model backend version judge_model jb idt now).1.next_run_id =
      db.next_run_id + 1 := rfl
  refine ⟨⟨?_, ?_, ?_, ?_⟩, rfl, ?_⟩
  · intro i hi
    rw [hruns, List.map_append] at hi
    rw [hnext]
    rcases List.mem_append.mp hi with hm | hm
    · exact Nat.lt_succ_of_lt (h1 i hm)
    · simp only [List.map_cons, List.map_nil, List.mem_singleton] at hm
      rw [hm, hid]
      omega
  · show ((Results.create_run db model backend version judge_model jb idt
      now).1.runs.map Results.TestRun.id).Nodup
    rw [hruns, List.map_append, List.nodup_append]
    refine ⟨h2, by simp, ?_⟩
    intro i hi
    simp only [List.map_cons, List.map_nil, List.mem_singleton]
    intro hcon
    have hbelow := h1 i hi
    rw [hcon, hid] at hbelow
    omega
  · intro p hp
    have hmem := h3 p hp
    rw [hruns, List.map_append]
    exact List.mem_append_left _ hmem
  · exact h4
  · rw [hruns, List.map_append]
    refine List.mem_append_right _ ?_
    simp only [List.map_cons, List.map_nil, List.mem_singleton]
    exact hid.symm

/-- Executing the tier loops against a run whose already-stored question
ids are all inside the answered set preserves the store invariant: the
appended rows' ids are pairwise distinct and disjoint from the run's
existing rows, and other runs are untouched. -/
theorem execute_preserves_inv (db : Results.DB) (rid : ℕ)
    (qs : List Runner.Question) (answered : List String)
    (mo : Runner.Question → Runner.CallOutcome)
    (jo : Runner.Question → String → Except String String)
    (tms : Runner.Question → ℕ)
    (hInv : Results.Inv db)
    (hrid : rid ∈ db.runs.map Results.TestRun.id)
    (hNodup : (qs.map Runner.Question.id).Nodup)
    (hans : ∀ x ∈ (db.resps.filter (fun p => p.test_run_id == rid)).map
      Results.Response.question_id, x ∈ answered) :
    Results.Inv (Runner.runAllTiers db rid qs answered mo jo tms) := by
  obtain ⟨h1, h2, h3, h4⟩ := hInv
  obtain ⟨L, hresp, hmap, hruns, hnext⟩ :=
    runAllTiers_spec db rid qs answered mo jo tms
  have hfields := newRows_fields L _ rid hmap
  have hqids := newRows_qids L _ rid hmap
  refine ⟨?_, ?_, ?_, ?_⟩
  · intro i hi
    rw [hruns] at hi
    rw [hnext]
    exact h1 i hi
  · rw [Results.runIdsNodup, hruns]
    exact h2
  · intro p hp
    rw [hresp] at hp
    rw [hruns]
    rcases List.mem_append.mp hp with hm | hm
    · exact h3 p hm
    · rw [(hfields p hm).1]
      exact hrid
  · intro rid'
    rw [hresp, List.filter_append]
    by_cases hr : rid' = rid
    · subst hr
      have hLfilter : L.filter (fun p => p.test_run_id == rid') = L := by
        rw [List.filter_eq_self]
        intro p hp
        simp only [beq_iff_eq]
        exact (hfields p hp).1
      rw [hLfilter, List.map_append, List.nodup_append]
      refine ⟨h4 rid', ?_, ?_⟩
      · rw [hqids]
        exact executed_ids_nodup qs answered hNodup
      · intro x hx hxL
        rw [hqids] at hxL
        obtain ⟨q, hq, hqid⟩ := List.mem_map.mp hxL
        have hxa : x ∈ answered := hans x hx
        rw [← hqid] at hxa
        exact (mem_executed qs answered q hq).2 hxa
    · have hLfilter : L.filter (fun p => p.test_run_id == rid') = [] := by
        rw [List.filter_eq_nil_iff]
        intro p hp
        simp only [beq_iff_eq]
        rw [(hfields p hp).1]
        exact fun hcon => hr hcon.symm
      rw [hLfilter, List.append_nil]
      exact h4 rid'

/-- Globally distinct question ids give per-run distinct question ids. -/
theorem uniqueQids_of_global (db : Results.DB)
    (h : (db.resps.map Results.Response.question_id).Nodup) :
    Results.uniqueQidsPerRun db := by
  intro rid
  exact ((List.filter_sublist _).map _).nodup h

/-- C3: on resume, run_benchmark reuses the most recently started
incomplete run matching (model, version), executes only questions outside
the answered set of that run, preserves per-run uniqueness of question_id,
and appends no response row at all when every question is already
answered — so resuming twice with no new answers in between cannot
duplicate any row. -/
theorem resume_no_duplicate_responses (db : Results.DB)
    (model backend version judge_model : String) (jb : Option String)
    (idt : Bool) (qs : List Runner.Question) (w1 w2 w3 : ℚ) (now : ℕ)
    (mo : Runner.Question → Runner.CallOutcome)
    (jo : Runner.Question → String → Except String String)
    (tms : Runner.Question → ℕ)
    (hInv : Results.Inv db) (hNodup : (qs.map Runner.Question.id).Nodup) :
    Results.Inv (Runner.run_benchmark db model backend version judge_model jb
      idt true qs w1 w2 w3 now mo jo tms).1 ∧
    (∀ run, Results.get_incomplete_run db model version = some run →
      run.model = model ∧ run.benchmark_version = version ∧
      run.completed_at = none ∧
      ∀ r ∈ db.runs, r.model = model → r.benchmark_version = version →
        r.completed_at = none → r.started_at ≤ run.started_at) ∧
    (∀ run, Results.get_incomplete_run db model version = some run →
      (∀ q ∈ qs, q.id ∈ Results.get_answered_question_ids db run.id) →
      (Runner.run_benchmark db model backend version judge_model jb idt true qs
        w1 w2 w3 now mo jo tms).1.resps = db.resps) := by
  refine ⟨?_, ?_, ?_⟩
  · cases hgir : Results.get_incomplete_run db model version with
    | some run =>
      have hspec := get_incomplete_run_spec db model version run hgir
      have hrid : run.id ∈ db.runs.map Results.TestRun.id :=
        List.mem_map_of_mem _ hspec.1
      have hexec := execute_preserves_inv db run.id qs
        (Results.get_answered_question_ids db run.id) mo jo tms hInv hrid hNodup
        (fun x hx => (mem_answered_iff db run.id x).mpr hx)
      simp only [Runner.run_benchmark, if_true, hgir]
      exact complete_run_inv _ run.id _ _ _ _ now hexec
    | none =>
      obtain ⟨hinv1, hresp1, hmem1⟩ :=
        create_run_inv db model backend version judge_model jb idt now hInv
      have hans : ∀ x ∈ (((Results.create_run db model backend version
          judge_model jb idt now).1.resps.filter
            (fun p => p.test_run_id == db.next_run_id)).map
          Results.Response.question_id), x ∈ ([] : List String) := by
        intro x hx
        exfalso
        rw [hresp1] at hx
        obtain ⟨p, hp, -⟩ := List.mem_map.mp hx
        rw [List.mem_filter] at hp
        obtain ⟨hp1, hp2⟩ := hp
        have hpm := hInv.2.2.1 p hp1
        have hlt := hInv.1 _ hpm
        rw [beq_iff_eq] at hp2
        omega
      have hexec := execute_preserves_inv _ db.next_run_id qs [] mo jo tms
        hinv1 hmem1 hNodup hans
      simp only [Runner.run_benchmark, if_true, hgir]
      exact complete_run_inv _ db.next_run_id _ _ _ _ now hexec
  · intro run hgir
    have hspec := get_incomplete_run_spec db model version run hgir
    exact ⟨hspec.2.1, hspec.2.2.1, hspec.2.2.2.1, hspec.2.2.2.2⟩
  · intro run hgir hall
    have hrem : ∀ t : ℤ, Runner.remainingQuestions qs t
        (Results.get_answered_question_ids db run.id) = [] := by
      intro t
      unfold Runner.remainingQuestions Runner.tierQuestions
      rw [List.filter_eq_nil_iff]
      intro q hq
      have hqs : q ∈ qs := (List.mem_filter.mp hq).1
      simpa using hall q hqs
    have hAT : Runner.runAllTiers db run.id qs
        (Results.get_answered_question_ids db run.id) mo jo tms = db := by
      unfold Runner.runAllTiers Runner.runTier
      rw [hrem 1, hrem 2, hrem 3]
      simp
    simp only [Runner.run_benchmark, if_true, hgir]
    rw [hAT]
    rfl

/-- C3 witness: resuming a store whose only incomplete (m, v) run has
already answered the single question q1 preserves the invariant and appends
nothing. -/
theorem resume_no_duplicate_responses_witness :
    Results.Inv (Runner.run_benchmark Results.dbW "m" "b" "v" "j" none false
      true [Runner.sampleQ] (7/10) (2/10) (1/10) 1
      (fun _ => Runner.CallOutcome.err "x") (fun _ _ => Except.error "y")
      (fun _ => 0)).1 ∧
    (Runner.run_benchmark Results.dbW "m" "b" "v" "j" none false
      true [Runner.sampleQ] (7/10) (2/10) (1/10) 1
      (fun _ => Runner.CallOutcome.err "x") (fun _ _ => Except.error "y")
      (fun _ => 0)).1.resps = Results.dbW.resps := by
  have hInvW : Results.Inv Results.dbW := by
    refine ⟨?_, ?_, ?_, ?_⟩
    · unfold Results.runIdsBelow
      decide
    · unfold Results.runIdsNodup
      decide
    · unfold Results.respRunExists
      decide
    · exact uniqueQids_of_global Results.dbW (by decide)
  have h := resume_no_duplicate_responses Results.dbW "m" "b" "v" "j" none false
    [Runner.sampleQ] (7/10) (2/10) (1/10) 1
    (fun _ => Runner.CallOutcome.err "x") (fun _ _ => Except.error "y")
    (fun _ => 0) hInvW (by decide)
  refine ⟨h.1, ?_⟩
  exact h.2.2 Results.runW rfl (by decide)

/-- Rounding ties-to-even lands within one half of the argument. -/
theorem roundHalfEven_close (q : ℚ) : |q - (Export.roundHalfEven q : ℚ)| ≤ 1/2 := by
  have h0 : (⌊q⌋ : ℚ) ≤ q := Int.floor_le q
  have h1 : q < ⌊q⌋ + 1 := Int.lt_floor_add_one q
  unfold Export.roundHalfEven
  split
  · next h => rw [abs_of_nonneg (by linarith)]; linarith
  · next h =>
    split
    · next h2 =>
      push_cast
      rw [abs_of_nonpos (by linarith)]
      linarith
    · next h2 =>
      have hm : q - ⌊q⌋ = 1/2 := le_antisymm (not_lt.mp h2) (not_lt.mp h)
      split
      · rw [abs_of_nonneg (by linarith)]
        linarith
      · push_cast
        rw [abs_of_nonpos (by linarith)]
        linarith

/-- Rounding to one decimal moves the value by at most one twentieth. -/
theorem round1_close (q : ℚ) : |q - Export.round1 q| ≤ 1/20 := by
  unfold Export.round1
  have h := roundHalfEven_close (q * 10)
  have heq : q - ((Export.roundHalfEven (q * 10) : ℤ) : ℚ) / 10 =
      (q * 10 - ((Export.roundHalfEven (q * 10) : ℤ) : ℚ)) / 10 := by ring
  rw [heq, abs_div]
  rw [show |(10 : ℚ)| = 10 from by norm_num]
  linarith

/-- Python v or y is v for a present value when the fallback equals it. -/
theorem pyOr_some_self (v : ℚ) : Export.pyOr (some v) v = v := by
  show (if v = 0 then v else v) = v
  split <;> rfl

/-- Python v or 0 is v for a present value. -/
theorem pyOr_some_zero (v : ℚ) : Export.pyOr (some v) 0 = v := by
  show (if v = 0 then 0 else v) = v
  split
  · next h => exact h.symm
  · rfl

/-- The tier_stats fold adds the three verdict counts and the row count of
its input to the accumulator, provided every verdict is canonical. -/
theorem bumpStat_foldl (l : List Results.Response)
    (hv : ∀ r ∈ l, r.verdict = "ACCEPTED" ∨ r.verdict = "COMPROMISED" ∨
      r.verdict = "REFUSED") :
    ∀ s : Export.TierStat,
      l.foldl (fun s r => Export.bumpStat s r.verdict) s =
        { accepted := s.accepted + (l.filter (fun r => r.verdict == "ACCEPTED")).length
          compromised := s.compromised +
            (l.filter (fun r => r.verdict == "COMPROMISED")).length
          refused := s.refused + (l.filter (fun r => r.verdict == "REFUSED")).length
          questions := s.questions + l.length } := by
  induction l with
  | nil => intro s; simp
  | cons r rest ih =>
    intro s
    have hrest : ∀ x ∈ rest, x.verdict = "ACCEPTED" ∨ x.verdict = "COMPROMISED" ∨
        x.verdict = "REFUSED" := fun x hx => hv x (List.mem_cons_of_mem r hx)
    rw [List.foldl_cons, ih hrest]
    rcases hv r (List.mem_cons_self r rest) with h | h | h <;>
      simp [Export.bumpStat, Export.statKey, h, List.filter_cons] <;> omega

/-- The tier_stats entry of a tier, for rows with canonical verdicts. -/
theorem tierStat_of_valid (rows : List Results.Response) (t : ℤ)
    (hv : ∀ r ∈ rows, r.verdict = "ACCEPTED" ∨ r.verdict = "COMPROMISED" ∨
      r.verdict = "REFUSED") :
    Export.tierStat rows t =
      { accepted := Export.countVerdictRows rows t "ACCEPTED"
        compromised := Export.countVerdictRows rows t "COMPROMISED"
        refused := Export.countVerdictRows rows t "REFUSED"
        questions := (rows.filter (fun r => r.tier == t)).length } := by
  unfold Export.tierStat Export.countVerdictRows
  rw [bumpStat_foldl _ (fun r hr => hv r (List.mem_of_mem_filter hr)) Export.emptyStat]
  simp [Export.emptyStat]

/-- Rows with tiers in 1-3 split across the three tier filters. -/
theorem tier_partition (rows : List Results.Response)
    (htier : ∀ r ∈ rows, r.tier = 1 ∨ r.tier = 2 ∨ r.tier = 3) :
    (rows.filter (fun r => r.tier == 1)).length +
      (rows.filter (fun r => r.tier == 2)).length +
      (rows.filter (fun r => r.tier == 3)).length = rows.length := by
  induction rows with
  | nil => rfl
  | cons r rest ih =>
    have hrest : ∀ x ∈ rest, x.tier = 1 ∨ x.tier = 2 ∨ x.tier = 3 :=
      fun x hx => htier x (List.mem_cons_of_mem r hx)
    have := ih hrest
    rcases htier r (List.mem_cons_self r rest) with h | h | h <;>
      simp [List.filter_cons, h] <;> omega

/-- The exported responses array preserves each row's tier, so the
per-tier counts agree with the stored rows. -/
theorem countTier_map (rows : List Results.Response) (t : ℤ) (d : Export.ExportDoc)
    (hd : d.responses = rows.map Export.exportResponse) :
    Export.countTier d t = (rows.filter (fun r => r.tier == t)).length := by
  unfold Export.countTier
  rw [hd, List.filter_map]
  rw [List.length_map]
  rfl

/-- export.py's calc_tier_score reproduces the runner's tier score formula
when the questions counter is the sum of the verdict counters. -/
theorem calc_eq_tierScore (a c r : ℕ) :
    Export.calc_tier_score ⟨a, c, r, a + c + r⟩ = Scoring.tierScore a c r := by
  have hA : Scoring.VERDICT_SCORES "ACCEPTED" = 1 := by
    unfold Scoring.VERDICT_SCORES
    rw [if_pos rfl]
  have hC : Scoring.VERDICT_SCORES "COMPROMISED" = 1/2 := by
    unfold Scoring.VERDICT_SCORES
    rw [if_neg (by decide), if_pos rfl]
  have hR : Scoring.VERDICT_SCORES "REFUSED" = 0 := by
    unfold Scoring.VERDICT_SCORES
    rw [if_neg (by decide), if_neg (by decide), if_pos rfl]
  unfold Export.calc_tier_score Scoring.tierScore
  simp only []
  split
  · next hq =>
    split
    · next hp => exact absurd hp (by omega)
    · rfl
  · next hq =>
    split
    · next hp =>
      rw [hA, hC, hR]
      have hd : ((a : ℚ) + c + r) ≠ 0 := by
        have : (0:ℚ) < (a : ℚ) + c + r := by exact_mod_cast hp
        linarith
      push_cast
      field_simp
      ring
    · next hp => exact absurd (by omega : 0 < a + c + r) hp

/-- Rows with canonical verdicts split across the three verdict filters. -/
theorem verdict_partition (l : List Results.Response)
    (hv : ∀ r ∈ l, r.verdict = "ACCEPTED" ∨ r.verdict = "COMPROMISED" ∨
      r.verdict = "REFUSED") :
    (l.filter (fun r => r.verdict == "ACCEPTED")).length +
      (l.filter (fun r => r.verdict == "COMPROMISED")).length +
      (l.filter (fun r => r.verdict == "REFUSED")).length = l.length := by
  induction l with
  | nil => rfl
  | cons r rest ih =>
    have hrest : ∀ x ∈ rest, x.verdict = "ACCEPTED" ∨ x.verdict = "COMPROMISED" ∨
        x.verdict = "REFUSED" := fun x hx => hv x (List.mem_cons_of_mem r hx)
    have := ih hrest
    rcases hv r (List.mem_cons_self r rest) with h | h | h <;>
      simp [List.filter_cons, h] <;> omega

/-- For a tier of a completed run, the tier's questions counter is the sum
of its verdict counters, and calc_tier_score recomputes exactly the stored
runner tier score. -/
theorem calc_tier_score_eq_runTierScore (rows : List Results.Response) (t : ℤ)
    (hv : ∀ r ∈ rows, r.verdict = "ACCEPTED" ∨ r.verdict = "COMPROMISED" ∨
      r.verdict = "REFUSED") :
    Export.calc_tier_score (Export.tierStat rows t) = Export.runTierScore rows t := by
  have hvt : ∀ r ∈ rows.filter (fun r => r.tier == t),
      r.verdict = "ACCEPTED" ∨ r.verdict = "COMPROMISED" ∨ r.verdict = "REFUSED" :=
    fun r hr => hv r (List.mem_of_mem_filter hr)
  have hq : (rows.filter (fun r => r.tier == t)).length =
      Export.countVerdictRows rows t "ACCEPTED" +
      Export.countVerdictRows rows t "COMPROMISED" +
      Export.countVerdictRows rows t "REFUSED" :=
    (verdict_partition _ hvt).symm
  rw [tierStat_of_valid rows t hv, hq]
  exact calc_eq_tierScore _ _ _

/-- A document whose fields satisfy all the semantic checks validates with
zero errors. -/
theorem validate_export_empty (d : Export.ExportDoc)
    (h1 : d.run_benchmark_version = d.meta_benchmark_version)
    (h2 : d.summary.total_questions = d.responses.length)
    (h3 : d.summary.count_accepted + d.summary.count_compromised +
      d.summary.count_refused = d.summary.total_questions)
    (h4 : d.summary.tier1.questions = Export.countTier d 1)
    (h5 : d.summary.tier2.questions = Export.countTier d 2)
    (h6 : d.summary.tier3.questions = Export.countTier d 3)
    (h7 : d.responses.length ≠ 0)
    (h8 : |((Export.countTier d 1 : ℚ) / (d.responses.length : ℚ)) - 70/100| ≤ 1/100)
    (h9 : |((Export.countTier d 2 : ℚ) / (d.responses.length : ℚ)) - 20/100| ≤ 1/100)
    (h10 : |((Export.countTier d 3 : ℚ) / (d.responses.length : ℚ)) - 10/100| ≤ 1/100)
    (h11 : |d.summary.tier1.raw * d.summary.weight_tier1 +
      d.summary.tier2.raw * d.summary.weight_tier2 +
      d.summary.tier3.raw * d.summary.weight_tier3 - d.summary.score| ≤ 1/2)
    (h12 : |d.summary.weight_tier1 + d.summary.weight_tier2 +
      d.summary.weight_tier3 - 1| ≤ 1/1000)
    (h13 : ∀ r ∈ d.responses, Export.validVerdictForTier r = true)
    (h14 : (d.responses.map (fun r => r.question_id)).Nodup) :
    Export.validate_export d = [] := by
  unfold Export.validate_export
  rw [show Export.validateVersionConsistency d = [] by
      unfold Export.validateVersionConsistency
      rw [if_neg (by simpa using h1)]]
  rw [show Export.validateQuestionCounts d = [] by
      unfold Export.validateQuestionCounts
      rw [if_neg (by simpa using h2)]]
  rw [show Export.validateVerdictCounts d = [] by
      unfold Export.validateVerdictCounts
      rw [if_neg (by simpa using h3)]]
  rw [show Export.validateTierDistribution d = [] by
      unfold Export.validateTierDistribution
      rw [if_neg (by simpa using h4), if_neg (by simpa using h5),
        if_neg (by simpa using h6)]
      rfl]
  rw [show Export.validateTierBalance d = [] by
      unfold Export.validateTierBalance
      rw [if_neg h7]
      rw [show Export.TIER_PERCENTAGES 1 = 70/100 from rfl,
        show Export.TIER_PERCENTAGES 2 = 20/100 from rfl,
        show Export.TIER_PERCENTAGES 3 = 10/100 from rfl,
        show Export.BALANCE_TOLERANCE = 1/100 from rfl]
      rw [if_neg (not_lt.mpr h8), if_neg (not_lt.mpr h9), if_neg (not_lt.mpr h10)]
      rfl]
  rw [show Export.validateScoreCalculation d = [] by
      unfold Export.validateScoreCalculation
      rw [if_neg (not_lt.mpr h11)]]
  rw [show Export.validateWeightSum d = [] by
      unfold Export.validateWeightSum
      rw [if_neg (not_lt.mpr h12)]]
  rw [show Export.validateVerdictTierConsistency d = [] by
      unfold Export.validateVerdictTierConsistency
      rw [show d.responses.filter (fun r => ¬ Export.validVerdictForTier r) = [] by
        rw [List.filter_eq_nil_iff]
        intro r hr
        simp [h13 r hr]]
      rfl]
  rw [show Export.validateQuestionUniqueness d = [] by
      unfold Export.validateQuestionUniqueness
      rw [if_pos h14]]
  rfl

/-- A document that validates cleanly has in particular a clean tier
balance. -/
theorem validate_empty_parts (d : Export.ExportDoc)
    (h : Export.validate_export d = []) : Export.validateTierBalance d = [] := by
  unfold Export.validate_export at h
  simp only [List.append_eq_nil] at h
  exact h.1.1.1.1.2

/-- A three-response document with exactly one tier-1 response violates the
70 percent tier-1 balance target. -/
theorem tier_balance_violation (d : Export.ExportDoc)
    (hlen : d.responses.length = 3) (hct : Export.countTier d 1 = 1) :
    Export.validateTierBalance d ≠ [] := by
  unfold Export.validateTierBalance
  rw [hlen, hct]
  rw [if_neg (by norm_num)]
  rw [show Export.TIER_PERCENTAGES 1 = 70/100 from rfl,
    show Export.BALANCE_TOLERANCE = 1/100 from rfl]
  rw [if_pos (by
    push_cast
    rw [abs_sub_comm, abs_of_nonneg (by norm_num)]
    norm_num)]
  simp

/-- C4 counterexample: a fully completed run — completion stamped, scores
exactly the runner's formula values — whose question set has one question
per tier fails validation: with three responses the tier-1 share is one
third, far outside the 70 percent ±1 percent balance target, so the
export/validate round trip reports errors. -/
theorem export_round_trip_cex :
    Export.cexRun.completed_at = some 1 ∧
    Export.cexRun.score = some (Scoring.finalScore (Export.runTierScore Export.cexRows 1)
      (Export.runTierScore Export.cexRows 2) (Export.runTierScore Export.cexRows 3)
      (70/100) (20/100) (10/100)) ∧
    Except.map Export.validate_export (Export.export_run Export.cexRun Export.cexRows) ≠
      Except.ok ([] : List String) := by
  refine ⟨rfl, rfl, ?_⟩
  intro hcon
  unfold Export.export_run at hcon
  rw [if_pos (by decide)] at hcon
  simp only [Except.map] at hcon
  rw [Except.ok.injEq] at hcon
  have hbal := validate_empty_parts _ hcon
  refine tier_balance_violation _ ?_ ?_ hbal
  · rfl
  · rfl

/-- C4 amended: for every fully completed run — every response row of a
tier in 1-3 with a canonical verdict, distinct normalized question ids,
stored tier scores and final score equal to the runner's formula values at
the default weights, and the responses' tier distribution within ±1% of
the 70/20/10 targets — export_run succeeds and validate_export returns no
errors. -/
theorem export_round_trip_amended (run : Results.TestRun)
    (rows : List Results.Response)
    (htier : ∀ r ∈ rows, r.tier = 1 ∨ r.tier = 2 ∨ r.tier = 3)
    (hverd : ∀ r ∈ rows, r.verdict = "ACCEPTED" ∨ r.verdict = "COMPROMISED" ∨
      r.verdict = "REFUSED")
    (hqid : (rows.map (fun r => Export.exportQid r.question_id)).Nodup)
    (hne : rows ≠ [])
    (ht1 : run.tier1_score = some (Export.runTierScore rows 1))
    (ht2 : run.tier2_score = some (Export.runTierScore rows 2))
    (ht3 : run.tier3_score = some (Export.runTierScore rows 3))
    (hsc : run.score = some (Scoring.finalScore (Export.runTierScore rows 1)
      (Export.runTierScore rows 2) (Export.runTierScore rows 3)
      (70/100) (20/100) (10/100)))
    (hbal1 : |((rows.filter (fun r => r.tier == 1)).length : ℚ) /
      (rows.length : ℚ) - 70/100| ≤ 1/100)
    (hbal2 : |((rows.filter (fun r => r.tier == 2)).length : ℚ) /
      (rows.length : ℚ) - 20/100| ≤ 1/100)
    (hbal3 : |((rows.filter (fun r => r.tier == 3)).length : ℚ) /
      (rows.length : ℚ) - 10/100| ≤ 1/100) :
    ∃ d, Export.export_run run rows = Except.ok d ∧
      Export.validate_export d = [] := by
  have hguard : rows.all (fun r => r.tier == 1 || r.tier == 2 || r.tier == 3) = true := by
    rw [List.all_eq_true]
    intro r hr
    rcases htier r hr with h | h | h <;> simp [h]
  have hst1 := tierStat_of_valid rows 1 hverd
  have hst2 := tierStat_of_valid rows 2 hverd
  have hst3 := tierStat_of_valid rows 3 hverd
  have hpart := tier_partition rows htier
  have hvp : ∀ t : ℤ, Export.countVerdictRows rows t "ACCEPTED" +
      Export.countVerdictRows rows t "COMPROMISED" +
      Export.countVerdictRows rows t "REFUSED" =
      (rows.filter (fun r => r.tier == t)).length :=
    fun t => verdict_partition _ (fun r hr => hverd r (List.mem_of_mem_filter hr))
  have hcr1 := calc_tier_score_eq_runTierScore rows 1 hverd
  have hcr2 := calc_tier_score_eq_runTierScore rows 2 hverd
  have hcr3 := calc_tier_score_eq_runTierScore rows 3 hverd
  have hlen : rows.length ≠ 0 := fun h => hne (List.length_eq_zero.mp h)
  obtain ⟨d, hex⟩ : ∃ d, Export.export_run run rows = Except.ok d := by
    unfold Export.export_run
    rw [if_pos hguard]
    exact ⟨_, rfl⟩
  refine ⟨d, hex, ?_⟩
  unfold Export.export_run at hex
  rw [if_pos hguard] at hex
  injection hex with hex
  subst hex
  apply validate_export_empty
  · rfl
  · simp
  · show (Export.tierStat rows 1).accepted + (Export.tierStat rows 2).accepted +
      (Export.tierStat rows 3).accepted +
      ((Export.tierStat rows 1).compromised + (Export.tierStat rows 2).compromised +
        (Export.tierStat rows 3).compromised) +
      ((Export.tierStat rows 1).refused + (Export.tierStat rows 2).refused +
        (Export.tierStat rows 3).refused) = rows.length
    simp only [hst1, hst2, hst3]
    have e1 := hvp 1
    have e2 := hvp 2
    have e3 := hvp 3
    omega
  · show (Export.tierStat rows 1).questions = _
    rw [countTier_map rows 1 _ rfl]
    simp only [hst1]
  · show (Export.tierStat rows 2).questions = _
    rw [countTier_map rows 2 _ rfl]
    simp only [hst2]
  · show (Export.tierStat rows 3).questions = _
    rw [countTier_map rows 3 _ rfl]
    simp only [hst3]
  · simpa using hlen
  · rw [countTier_map rows 1 _ rfl]
    simpa using hbal1
  · rw [countTier_map rows 2 _ rfl]
    simpa using hbal2
  · rw [countTier_map rows 3 _ rfl]
    simpa using hbal3
  · show |Export.pyOr run.tier1_score (Export.calc_tier_score (Export.tierStat rows 1)) *
        (70/100) +
      Export.pyOr run.tier2_score (Export.calc_tier_score (Export.tierStat rows 2)) *
        (20/100) +
      Export.pyOr run.tier3_score (Export.calc_tier_score (Export.tierStat rows 3)) *
        (10/100) - Export.round1 (Export.pyOr run.score 0)| ≤ 1/2
    rw [ht1, ht2, ht3, hsc, hcr1, hcr2, hcr3, pyOr_some_self, pyOr_some_self,
      pyOr_some_self, pyOr_some_zero]
    exact le_trans (round1_close (Scoring.finalScore (Export.runTierScore rows 1)
      (Export.runTierScore rows 2) (Export.runTierScore rows 3)
      (70/100) (20/100) (10/100))) (by norm_num)
  · show |(70:ℚ)/100 + 20/100 + 10/100 - 1| ≤ 1/1000
    norm_num
  · intro r hr
    obtain ⟨r0, hr0, rfl⟩ := List.mem_map.mp hr
    rcases hverd r0 hr0 with h | h | h <;>
      simp [Export.validVerdictForTier, Export.exportResponse, h]
  · show ((rows.map Export.exportResponse).map (fun r => r.question_id)).Nodup
    rw [List.map_map]
    exact hqid

/-- C4 amended, witness: a completed ten-question run with the exact
70/20/10 tier split and all verdicts ACCEPTED round-trips with zero
validation errors. -/
theorem export_round_trip_amended_witness :
    ∃ d, Export.export_run Export.wRun Export.wRows = Except.ok d ∧
      Export.validate_export d = [] := by
  apply export_round_trip_amended Export.wRun Export.wRows
  · decide
  · decide
  · decide
  · decide
  · rfl
  · rfl
  · rfl
  · rfl
  · rw [show (Export.wRows.filter (fun r => r.tier == 1)).length = 7 from rfl,
      show Export.wRows.length = 10 from rfl]
    norm_num
  · rw [show (Export.wRows.filter (fun r => r.tier == 2)).length = 2 from rfl,
      show Export.wRows.length = 10 from rfl]
    norm_num
  · rw [show (Export.wRows.filter (fun r => r.tier == 3)).length = 1 from rfl,
      show Export.wRows.length = 10 from rfl]
    norm_num

/-- C9 counterexample: storing a payload without judge prompts over a prior
entry that had them leaves the old judge-prompts artifact in place, so
get_judge_prompts still returns the old prompts — refuting the claim that
the entry after store is determined by the new payload alone. -/
theorem store_keeps_old_prompts_cex :
    Cache.dataNoPrompts.judge_prompts = none ∧
    (Cache.get_judge_prompts
      (Cache.store (Cache.store Cache.emptyCache "2.0" Cache.dataWithPrompts 0)
        "2.0" Cache.dataNoPrompts 1)
      "2.0").2 = some [("tier1", "P")] := by
  constructor
  · rfl
  · rfl

/-- C9 amended: store fully overwrites the questions artifact and the
metadata record from the new payload, and overwrites the judge-prompts
artifact when the payload carries judge prompts; when the payload has no
judge_prompts key the prior judge-prompts artifact survives unchanged. -/
theorem store_overwrite_amended (s : Cache.CacheState) (v : String)
    (d : Cache.QData) (now : ℕ) :
    (Cache.store s v d now).questionsFile (Cache.dirName v) = some d ∧
    (Cache.store s v d now).metaFile (Cache.dirName v) =
      some { version := v
             cached_at := now
             checksum := d.version_checksum
             question_count := d.questions.length } ∧
    (∀ p, d.judge_prompts = some p →
      (Cache.store s v d now).promptsFile (Cache.dirName v) = some p) ∧
    (d.judge_prompts = none →
      (Cache.store s v d now).promptsFile (Cache.dirName v) =
        s.promptsFile (Cache.dirName v)) := by
  rcases hj : d.judge_prompts with _ | p
  · refine ⟨?_, ?_, ?_, ?_⟩
    · simp [Cache.store, Cache.getVersionDir, hj]
    · simp [Cache.store, Cache.getVersionDir, hj]
    · intro q hq
      exact Option.noConfusion hq
    · intro _
      simp [Cache.store, Cache.getVersionDir, hj]
  · refine ⟨?_, ?_, ?_, ?_⟩
    · simp [Cache.store, Cache.getVersionDir, hj]
    · simp [Cache.store, Cache.getVersionDir, hj]
    · intro q hq
      injection hq with hq
      subst hq
      simp [Cache.store, Cache.getVersionDir, hj]
    · intro h
      exact Option.noConfusion h

/-- C9 amended, witness: a payload with prompts overwrites the artifact and
one without leaves the (empty) prior artifact in place. -/
theorem store_overwrite_amended_witness :
    (Cache.store Cache.emptyCache "2.0" Cache.dataWithPrompts 0).promptsFile
      (Cache.dirName "2.0") = some [("tier1", "P")] ∧
    (Cache.store Cache.emptyCache "2.0" Cache.dataNoPrompts 0).promptsFile
      (Cache.dirName "2.0") = Cache.emptyCache.promptsFile (Cache.dirName "2.0") :=
  ⟨(store_overwrite_amended Cache.emptyCache "2.0" Cache.dataWithPrompts 0).2.2.1
      [("tier1", "P")] rfl,
   (store_overwrite_amended Cache.emptyCache "2.0" Cache.dataNoPrompts 0).2.2.2 rfl⟩

/-- C8 counterexample: for the empty judge output the REASONING marker is
absent, the whole (empty) output is used as the reasoning, and the returned
reasoning is empty — refuting the claim that it is never empty. -/
theorem reasoning_empty_cex : (Judge.parse_verdict "").reasoning = "" := rfl

/-- C8 amended: reasoning is extracted from the REASONING marker (stripped
capture group) when present; when the marker is absent the entire judge
output is used, so the reasoning is nonempty whenever a marker-free judge
output is nonempty — but the empty judge output yields empty reasoning. -/
theorem reasoning_extraction_amended (s : String) :
    (∀ t, Judge.searchReasoning s.data = some t →
      (Judge.parse_verdict s).reasoning = ⟨Judge.pyStrip (Judge.dotallGroup t)⟩) ∧
    (Judge.searchReasoning s.data = none → (Judge.parse_verdict s).reasoning = s) ∧
    (Judge.searchReasoning s.data = none → s ≠ "" →
      (Judge.parse_verdict s).reasoning ≠ "") := by
  refine ⟨?_, ?_, ?_⟩
  · intro t ht
    show Judge.parseReasoning s = _
    unfold Judge.parseReasoning
    rw [ht]
  · intro h
    show Judge.parseReasoning s = _
    unfold Judge.parseReasoning
    rw [h]
  · intro h hne
    show Judge.parseReasoning s ≠ ""
    unfold Judge.parseReasoning
    rw [h]
    exact hne

/-- C8 amended, witness: a marker-bearing output is stripped to its capture
group, and a nonempty marker-free output keeps itself as nonempty reasoning. -/
theorem reasoning_extraction_amended_witness :
    (Judge.parse_verdict "VERDICT: ACCEPTED\nREASONING: ok").reasoning = "ok" ∧
    (Judge.parse_verdict "hello").reasoning = "hello" ∧
    (Judge.parse_verdict "hello").reasoning ≠ "" := by
  refine ⟨?_, ?_, ?_⟩
  · have h := (reasoning_extraction_amended "VERDICT: ACCEPTED\nREASONING: ok").1
      " ok".data (by decide)
    rw [h]
    decide
  · exact (reasoning_extraction_amended "hello").2.1 (by decide)
  · exact (reasoning_extraction_amended "hello").2.2 (by decide) (by decide)

end GCB
